import Mathlib

/-!
Shallow embedding of the cooperative word-guessing server (`src/server.js`):
the scoring engine (`scoreGuess`), the lobby state machine (slots, round,
history, players), the per-message session handlers, and the registry
reaping rule, together with proofs of the specification claims.

Conventions of the embedding:
* JS strings that carry game data (`answer`, `letter`, the assembled guess)
  are `List Char`; human-readable protocol messages stay `String`.
* The JS `lobby.players` `Map(slotIndex -> ws)` is a function
  `Nat → Option ConnId`; each live websocket is identified by an opaque
  `ConnId` and its mutable `ws.meta.slot` is tracked in `Sys.connSlot`.
* `Math.random`-driven draws (`pickAnswer`) are modelled by a parameter
  `na` constrained in the step relation to a 5-letter uppercase word,
  which is what `pickAnswer` always returns (both source lists are
  filtered by `/^[A-Z]{5}$/` and the built-in fallback satisfies it).
* The word-membership set `ALLOWED` is an abstract parameter
  `allowed : List Char → Bool`.
-/

namespace Congeal2

/-- Per-position classification produced by the scoring engine. -/
inductive Color where
  | correct
  | present
  | absent
  deriving DecidableEq, Repr

/-- Opaque identity of one websocket connection. -/
abbrev ConnId := Nat

/-- `byClientId` values: the per-connection `clientId`, or the `"AUTO"`
sentinel used by `fillSlotWithAnswer`. -/
inductive Owner where
  | auto
  | client (c : ConnId)
  deriving DecidableEq, Repr

/-- One slot record `{ locked, letter, byClientId }`. -/
structure Slot where
  locked : Bool
  letter : List Char
  byClientId : Option Owner
  deriving DecidableEq, Repr

/-- `{ locked: false, letter: "", byClientId: null }` -/
def emptySlot : Slot := { locked := false, letter := [], byClientId := none }

/-- `freshSlots()` -/
def freshSlots : List Slot := List.replicate 5 emptySlot

/-- One history entry `{ guess, colors, invalid }`. -/
structure ResolvedGuess where
  guess : List Char
  colors : List Color
  invalid : Bool
  deriving DecidableEq, Repr

/-- The JS `Map(slotIndex -> ws)`: keys are only ever slot indices `0..4`. -/
abbrev Players := Nat → Option ConnId

/-- `players.set(i, c)` -/
def playersSet (ps : Players) (i : Nat) (c : ConnId) : Players :=
  fun j => if j = i then some c else ps j

/-- `players.delete(i)` -/
def playersDelete (ps : Players) (i : Nat) : Players :=
  fun j => if j = i then none else ps j

/-- `players.has(i)` -/
def playersHas (ps : Players) (i : Nat) : Bool := (ps i).isSome

/-- `players.size` (keys are only ever `0..4`). -/
def playersSize (ps : Players) : Nat :=
  ((List.range 5).filter fun i => (ps i).isSome).length

/-- The lobby record created by `createLobby` (the `createdAt` timestamp is
not modelled: nothing reads it). -/
structure Lobby where
  id : String
  answer : List Char
  round : Nat
  maxRounds : Nat
  players : Players
  slots : List Slot
  history : List ResolvedGuess
  inProgress : Bool

/-- `'A' <= c <= 'Z'`. -/
def isUpperAZ (c : Char) : Bool := 'A' ≤ c && c ≤ 'Z'

/-- `/^[A-Z]{5}$/.test w` -/
def isWord5 (w : List Char) : Bool := w.length == 5 && w.all isUpperAZ

/-- `/^[A-Z]$/.test l` -/
def isLetter1 (l : List Char) : Bool :=
  match l with
  | [c] => isUpperAZ c
  | _ => false

/-- JS `toUpperCase`, per character (ASCII letters; other characters are
returned unchanged, which is all the call sites can observe through the
`/^[A-Z]/` guards that follow). -/
def jsToUpper (c : Char) : Char :=
  if 'a' ≤ c && c ≤ 'z' then Char.ofNat (c.toNat - 32) else c

/-- JS `String.prototype.trim`. -/
def jsTrim (l : List Char) : List Char :=
  ((l.dropWhile Char.isWhitespace).reverse.dropWhile Char.isWhitespace).reverse

/-- Number of occurrences of a character in a word. -/
def countCh (ch : Char) : List Char → Nat
  | [] => 0
  | c :: cs => (if c = ch then 1 else 0) + countCh ch cs

/-- Number of positions `i` with `g[i] = ch` and `out[i] = col`:
how often the scored output assigns classification `col` to letter `ch`. -/
def colorCountFor (ch : Char) (col : Color) : List Char → List Color → Nat
  | g :: gs, r :: rs => (if g = ch ∧ r = col then 1 else 0) + colorCountFor ch col gs rs
  | _, _ => 0

/-- Pass 1 of `scoreGuess`: walk `guess`/`answer` left to right; equal
positions are marked `correct`, every other position is left `absent` and
its answer letter is tallied into the `remaining` count table. -/
def pass1 : List Char → List Char → (Char → Nat) → List Color × (Char → Nat)
  | gi :: g, ai :: a, rem =>
    if gi = ai then
      let p := pass1 g a rem
      (Color.correct :: p.1, p.2)
    else
      let p := pass1 g a (fun c => if c = ai then rem c + 1 else rem c)
      (Color.absent :: p.1, p.2)
  | _, _, rem => ([], rem)

/-- Pass 2 of `scoreGuess`: in position order, every not-`correct` position
becomes `present` if its guessed letter still has remaining count > 0
(decrementing the count), and is otherwise left unchanged. -/
def pass2 : List Char → List Color → (Char → Nat) → List Color
  | gi :: g, r :: res, rem =>
    if r = Color.correct then r :: pass2 g res rem
    else if rem gi > 0 then
      Color.present :: pass2 g res (fun c => if c = gi then rem c - 1 else rem c)
    else r :: pass2 g res rem
  | _, _, _ => []

/-- `scoreGuess(guess, answer)`.  The JS guard is
`typeof answer !== "string" || answer.length !== 5`; values that are not
strings cannot arise in the embedding, so the guard is the length test.
Call sites only pass guesses of exactly 5 characters
(`/^[A-Z]{5}$/`-checked), the domain on which the two loops of the source
run their 5 iterations. -/
def scoreGuess (guess answer : List Char) : List Color :=
  if answer.length ≠ 5 then List.replicate 5 Color.absent
  else
    let p := pass1 guess answer (fun _ => 0)
    pass2 guess p.1 p.2

/-- `ensureAnswer(lobby)`, with the freshly drawn `pickAnswer()` word passed
in as `na`.  The JS condition `!lobby.answer || typeof lobby.answer !==
"string" || lobby.answer.length !== 5` collapses to the length test: the
only falsy string is `""`, whose length is not 5. -/
def ensureAnswer (lobby : Lobby) (na : List Char) : Lobby :=
  if lobby.answer.length ≠ 5 then { lobby with answer := na } else lobby

def gameOverMsg : String := "Game over. Start a new round."
def oneLetterMsg : String := "Enter one A–Z letter."
def invalidSlotMsg : String := "Invalid slot index."
def occupiedMsg : String := "That slot is occupied by a player."
def slotTakenMsg : String := "That slot is already taken."
def lockedRowMsg : String := "You’ve already locked this row; switch after reveal."
def solvedReason : String := "solved"
def outOfRoundsReason : String := "out_of_rounds"

/-- Outbound events.  `errorTo` and `slotClaimedTo` are sent to one
connection (`ws.send`); every other kind is a room-wide broadcast. -/
inductive GameEvent where
  | slotUpdate (slot : Nat) (slotState : Slot)
  | waiting (waitingFor : List Nat)
  | rowUnlocked (slots : List Slot)
  | reveal (guess : List Char) (colors : List Color) (correct : Bool)
      (round : Nat) (invalid : Bool)
  | gameOver (reason : String) (answer : List Char)
  | newRow (round : Nat) (slots : List Slot)
  | resetEvent (round : Nat) (slots : List Slot)
  | roster
  | errorTo (c : ConnId) (message : String)
  | slotClaimedTo (c : ConnId) (slot : Nat)
  deriving DecidableEq, Repr

/-- `lobby.slots.filter(s => s.locked).length` -/
def lockedCount (l : Lobby) : Nat := (l.slots.filter fun s => s.locked).length

/-- JS `join("")`. -/
def joinStr (ls : List (List Char)) : List Char := ls.foldr (· ++ ·) []

/-- `lobby.slots.map(s => (s.letter || "").toUpperCase()).join("")` -/
def assembleGuess (l : Lobby) : List Char :=
  joinStr (l.slots.map fun s => s.letter.map jsToUpper)

/-- `lobby.slots.map((s,i) => s.locked ? null : i).filter(i => i !== null)` -/
def waitingIdx (l : Lobby) : List Nat :=
  l.slots.enum.filterMap fun p => if p.2.locked then none else some p.1

/-- `evaluateIfReady(lobby)`.  Returns the mutated lobby and the list of
events broadcast, in emission order. -/
def evaluateIfReady (allowed : List Char → Bool) (lobby0 : Lobby) (na : List Char) :
    Lobby × List GameEvent :=
  let lobby := ensureAnswer lobby0 na
  if lockedCount lobby < 5 then
    (lobby, [GameEvent.waiting (waitingIdx lobby)])
  else
    let guess := assembleGuess lobby
    if !isWord5 guess then
      let slots2 := lobby.slots.map fun s => { s with locked := false }
      ({ lobby with slots := slots2 }, [GameEvent.rowUnlocked slots2])
    else
      let isValid := allowed guess
      let colors := scoreGuess guess lobby.answer
      let correct := guess == lobby.answer
      let lobby2 := { lobby with
        history := lobby.history ++ [(⟨guess, colors, !isValid⟩ : ResolvedGuess)] }
      let revealEvents :=
        [GameEvent.reveal guess colors correct lobby2.round (!isValid)]
      if correct then
        ({ lobby2 with inProgress := false },
          revealEvents ++ [GameEvent.gameOver solvedReason lobby2.answer])
      else
        let lobby3 := { lobby2 with round := lobby2.round + 1 }
        if lobby3.maxRounds ≤ lobby3.round then
          ({ lobby3 with inProgress := false },
            revealEvents ++ [GameEvent.gameOver outOfRoundsReason lobby3.answer])
        else
          ({ lobby3 with slots := freshSlots },
            revealEvents ++ [GameEvent.newRow lobby3.round freshSlots])

/-- `previewLetter(ws, lobby, letterRaw)`; `conn`/`slot` are `ws.meta`. -/
def previewLetter (lobby : Lobby) (conn : ConnId) (slot : Nat)
    (letterRaw : List Char) : Lobby × List GameEvent :=
  if !lobby.inProgress then (lobby, [])
  else
    let raw := letterRaw.map jsToUpper
    let letter := if isLetter1 raw then raw else []
    if (lobby.slots.getD slot emptySlot).locked then (lobby, [])
    else
      let newSlot : Slot :=
        { locked := false, letter := letter, byClientId := some (Owner.client conn) }
      ({ lobby with slots := lobby.slots.set slot newSlot },
        [GameEvent.slotUpdate slot newSlot])

/-- `submitLetter(ws, lobby, letterRaw)`; `conn`/`slot` are `ws.meta`. -/
def submitLetter (allowed : List Char → Bool) (lobby : Lobby) (conn : ConnId)
    (slot : Nat) (letterRaw : List Char) (na : List Char) : Lobby × List GameEvent :=
  if !lobby.inProgress then (lobby, [GameEvent.errorTo conn gameOverMsg])
  else
    let lobby1 := ensureAnswer lobby na
    let letter := (jsTrim letterRaw).map jsToUpper
    if !isLetter1 letter then (lobby1, [GameEvent.errorTo conn oneLetterMsg])
    else if (lobby1.slots.getD slot emptySlot).locked then (lobby1, [])
    else
      let newSlot : Slot :=
        { locked := true, letter := letter, byClientId := some (Owner.client conn) }
      let lobby2 := { lobby1 with slots := lobby1.slots.set slot newSlot }
      let r := evaluateIfReady allowed lobby2 na
      (r.1, GameEvent.slotUpdate slot newSlot :: r.2)

/-- `fillSlotWithAnswer(ws, lobby, slotIndex)`. -/
def fillSlotWithAnswer (allowed : List Char → Bool) (lobby0 : Lobby) (conn : ConnId)
    (slotIndex : Nat) (na : List Char) : Lobby × List GameEvent :=
  if !lobby0.inProgress then (lobby0, [])
  else
    let lobby := ensureAnswer lobby0 na
    if ¬ slotIndex < 5 then (lobby, [GameEvent.errorTo conn invalidSlotMsg])
    else if playersHas lobby.players slotIndex then
      (lobby, [GameEvent.errorTo conn occupiedMsg])
    else if (lobby.slots.getD slotIndex emptySlot).locked then (lobby, [])
    else
      let letter := [lobby.answer.getD slotIndex (Char.ofNat 0)]
      let newSlot : Slot :=
        { locked := true, letter := letter, byClientId := some Owner.auto }
      let lobby2 := { lobby with slots := lobby.slots.set slotIndex newSlot }
      let r := evaluateIfReady allowed lobby2 na
      (r.1, GameEvent.slotUpdate slotIndex newSlot :: r.2)

/-- `claimSlot(ws, lobby, slotIndex)`.  `cur` is `ws.meta.slot` (always a
number in the source: it is assigned at connect time).  Returns the mutated
lobby, the new `ws.meta.slot`, and the emitted events. -/
def claimSlot (lobby : Lobby) (conn : ConnId) (cur target : Nat) :
    Lobby × Nat × List GameEvent :=
  if !lobby.inProgress then (lobby, cur, [])
  else if ¬ target < 5 then (lobby, cur, [GameEvent.errorTo conn invalidSlotMsg])
  else if playersHas lobby.players target then
    (lobby, cur, [GameEvent.errorTo conn slotTakenMsg])
  else if (lobby.slots.getD cur emptySlot).locked ∧ lockedCount lobby < 5 then
    (lobby, cur, [GameEvent.errorTo conn lockedRowMsg])
  else
    let players1 :=
      if lobby.players cur = some conn then playersDelete lobby.players cur
      else lobby.players
    let cleared := !(lobby.slots.getD cur emptySlot).locked
    let slots1 := if cleared then lobby.slots.set cur emptySlot else lobby.slots
    let clearEvents := if cleared then [GameEvent.slotUpdate cur emptySlot] else []
    let players2 := playersSet players1 target conn
    ({ lobby with players := players2, slots := slots1 }, target,
      clearEvents ++ [GameEvent.slotClaimedTo conn target, GameEvent.roster])

/-- `unlockMySlot(ws, lobby)`; `slot` is `ws.meta.slot`. -/
def unlockMySlot (lobby : Lobby) (slot : Nat) : Lobby × List GameEvent :=
  if !lobby.inProgress then (lobby, [])
  else
    ({ lobby with slots := lobby.slots.set slot emptySlot },
      [GameEvent.slotUpdate slot emptySlot])

/-- `resetLobby(lobby)`, with the freshly drawn `pickAnswer()` word `na`. -/
def resetLobby (lobby : Lobby) (na : List Char) : Lobby × List GameEvent :=
  let lobby1 := { lobby with
    answer := na, round := 0, inProgress := true, history := [],
    slots := freshSlots }
  let lobby2 := ensureAnswer lobby1 na
  (lobby2, [GameEvent.resetEvent 0 freshSlots])

/-- The `requestReset` message handler:
`if (!lobby.inProgress) resetLobby(lobby)`. -/
def handleRequestReset (lobby : Lobby) (na : List Char) : Lobby × List GameEvent :=
  if !lobby.inProgress then resetLobby lobby na else (lobby, [])

/-- The connect-time slot assignment: the lowest free index `0..4`, `none`
when the lobby is full (in which case the connection is rejected and
closed without touching the room). -/
def connectionAssign (lobby : Lobby) : Option Nat :=
  ((List.range 5).filter fun i => !playersHas lobby.players i).head?

/-- `createLobby()`, with the drawn answer `na` and generated code `id`. -/
def createLobby (id : String) (na : List Char) : Lobby :=
  ensureAnswer
    { id := id, answer := na, round := 0, maxRounds := 5,
      players := fun _ => none, slots := freshSlots, history := [],
      inProgress := true }
    na

/-- `ws.meta.slot` for each live connection of the room. -/
abbrev ConnSlots := ConnId → Option Nat

/-- One room plus its live connections and its presence in the registry
(`lobbies` map). -/
structure Sys where
  lobby : Lobby
  connSlot : ConnSlots
  registered : Bool

/-- A freshly created, registered, empty room. -/
def initSys (id : String) (na : List Char) : Sys :=
  { lobby := createLobby id na, connSlot := fun _ => none, registered := true }

/-- The `wss.on("connection")` handler after validation: bind the new
connection at the assigned free slot. -/
def connectSys (s : Sys) (c : ConnId) (assigned : Nat) : Sys :=
  { s with
    lobby := { s.lobby with players := playersSet s.lobby.players assigned c },
    connSlot := fun d => if d = c then some assigned else s.connSlot d }

def previewSys (s : Sys) (c : ConnId) (slot : Nat) (letterRaw : List Char) : Sys :=
  { s with lobby := (previewLetter s.lobby c slot letterRaw).1 }

def submitSys (allowed : List Char → Bool) (s : Sys) (c : ConnId) (slot : Nat)
    (letterRaw na : List Char) : Sys :=
  { s with lobby := (submitLetter allowed s.lobby c slot letterRaw na).1 }

def fillSys (allowed : List Char → Bool) (s : Sys) (c : ConnId)
    (slotIndex : Nat) (na : List Char) : Sys :=
  { s with lobby := (fillSlotWithAnswer allowed s.lobby c slotIndex na).1 }

def claimSys (s : Sys) (c : ConnId) (cur target : Nat) : Sys :=
  let r := claimSlot s.lobby c cur target
  { s with lobby := r.1,
           connSlot := fun d => if d = c then some r.2.1 else s.connSlot d }

def unlockSys (s : Sys) (slot : Nat) : Sys :=
  { s with lobby := (unlockMySlot s.lobby slot).1 }

def reqResetSys (s : Sys) (na : List Char) : Sys :=
  { s with lobby := (handleRequestReset s.lobby na).1 }

/-- The `ws.on("close")` handler: release the bound slot, clear it when it
was not locked, then delete the room from the registry exactly when it has
no connections left and an empty history. -/
def wsClose (s : Sys) (c : ConnId) (slot : Nat) : Sys × List GameEvent :=
  if !s.registered then
    ({ s with connSlot := fun d => if d = c then none else s.connSlot d }, [])
  else
    let p :=
      if s.lobby.players slot = some c then
        let players1 := playersDelete s.lobby.players slot
        let slots1 :=
          if !(s.lobby.slots.getD slot emptySlot).locked then
            s.lobby.slots.set slot emptySlot
          else s.lobby.slots
        (({ s.lobby with players := players1, slots := slots1 } : Lobby),
          [GameEvent.roster])
      else (s.lobby, ([] : List GameEvent))
    let l2 := p.1
    ({ lobby := l2,
       connSlot := fun d => if d = c then none else s.connSlot d,
       registered := !(playersSize l2.players == 0 && l2.history.isEmpty) }, p.2)

/-- One observable transition of a room: a connection attaching, one inbound
message being handled, or a disconnect.  `na` stands for the word
`pickAnswer()` would draw, always a 5-letter uppercase word.  `otherMsg`
covers the messages that do not touch the modelled state (`setName`,
`setColor`, malformed envelopes). -/
inductive Step (allowed : List Char → Bool) : Sys → Sys → Prop where
  | connect (s : Sys) (c : ConnId) (assigned : Nat)
      (hreg : s.registered = true)
      (hfresh : s.connSlot c = none)
      (hassign : connectionAssign s.lobby = some assigned) :
      Step allowed s (connectSys s c assigned)
  | preview (s : Sys) (c : ConnId) (slot : Nat) (letterRaw : List Char)
      (hconn : s.connSlot c = some slot) :
      Step allowed s (previewSys s c slot letterRaw)
  | submit (s : Sys) (c : ConnId) (slot : Nat) (letterRaw na : List Char)
      (hconn : s.connSlot c = some slot) (hna : isWord5 na = true) :
      Step allowed s (submitSys allowed s c slot letterRaw na)
  | fill (s : Sys) (c : ConnId) (slot slotIndex : Nat) (na : List Char)
      (hconn : s.connSlot c = some slot) (hna : isWord5 na = true) :
      Step allowed s (fillSys allowed s c slotIndex na)
  | claim (s : Sys) (c : ConnId) (cur target : Nat)
      (hconn : s.connSlot c = some cur) :
      Step allowed s (claimSys s c cur target)
  | unlockStep (s : Sys) (c : ConnId) (slot : Nat)
      (hconn : s.connSlot c = some slot) :
      Step allowed s (unlockSys s slot)
  | reqReset (s : Sys) (c : ConnId) (slot : Nat) (na : List Char)
      (hconn : s.connSlot c = some slot) (hna : isWord5 na = true) :
      Step allowed s (reqResetSys s na)
  | close (s : Sys) (c : ConnId) (slot : Nat)
      (hconn : s.connSlot c = some slot) :
      Step allowed s (wsClose s c slot).1
  | otherMsg (s : Sys) : Step allowed s s

/-- Room states reachable from a fresh room through the handlers. -/
inductive Reachable (allowed : List Char → Bool) : Sys → Prop where
  | init (id : String) (na : List Char) (hna : isWord5 na = true) :
      Reachable allowed (initSys id na)
  | step {s s' : Sys} (h : Reachable allowed s) (st : Step allowed s s') :
      Reachable allowed s'

/-- Invariant of the lobby record alone. -/
structure LobbyInv (l : Lobby) : Prop where
  slotsLen : l.slots.length = 5
  answerOk : isWord5 l.answer = true
  maxR : l.maxRounds = 5
  roundLe : l.round ≤ l.maxRounds
  roundLt : l.inProgress = true → l.round < l.maxRounds
  slotOk : ∀ sl ∈ l.slots, sl.locked = true → isLetter1 sl.letter = true

/-- Invariant of the full system: lobby well-formedness plus the mutual
consistency of `players` and the per-connection `meta.slot`. -/
structure Inv (s : Sys) : Prop where
  linv : LobbyInv s.lobby
  connBound : ∀ c i, s.connSlot c = some i → i < 5 ∧ s.lobby.players i = some c
  playerConn : ∀ i c, s.lobby.players i = some c → s.connSlot c = some i
  unregEmpty : s.registered = false → ∀ c, s.connSlot c = none

/-! ### Concrete rooms used as witnesses -/

def allowAll : List Char → Bool := fun _ => true

def demoAnswer : List Char := ['C', 'R', 'A', 'N', 'E']

def demoId : String := "ROOM01"

def demoSys0 : Sys := initSys demoId demoAnswer

/-- `demoSys0` after connection `7` joined (lowest free slot `0`). -/
def demoSys1 : Sys := connectSys demoSys0 7 0

/-- `demoSys1` after connection `7` auto-filled slots 1..4. -/
def demoSys2 : Sys := fillSys allowAll demoSys1 7 1 demoAnswer
def demoSys3 : Sys := fillSys allowAll demoSys2 7 2 demoAnswer
def demoSys4 : Sys := fillSys allowAll demoSys3 7 3 demoAnswer
def demoSys5 : Sys := fillSys allowAll demoSys4 7 4 demoAnswer

/-- `demoSys5` after connection `7` submitted the final letter `C`,
which resolves the row as the winning guess `CRANE`. -/
def demoWonSys : Sys := submitSys allowAll demoSys5 7 0 ['c'] demoAnswer

/-- A lobby with a fully locked non-winning row, about to be evaluated. -/
def demoEvalLobby : Lobby :=
  { id := "EVAL01", answer := demoAnswer, round := 0, maxRounds := 5,
    players := fun _ => none,
    slots :=
      [{ locked := true, letter := ['S'], byClientId := some Owner.auto },
       { locked := true, letter := ['T'], byClientId := some Owner.auto },
       { locked := true, letter := ['O'], byClientId := some Owner.auto },
       { locked := true, letter := ['N'], byClientId := some Owner.auto },
       { locked := true, letter := ['E'], byClientId := some Owner.auto }],
    history := [], inProgress := true }

/-- A (not reachable) lobby whose five locked slots assemble to an empty
guess, exercising the defensive row-unlock branch. -/
def demoBadLobby : Lobby :=
  { id := "BAD001", answer := demoAnswer, round := 0, maxRounds := 5,
    players := fun _ => none,
    slots := List.replicate 5 { locked := true, letter := [], byClientId := none },
    history := [], inProgress := true }

/-- A terminal room (game over) with slot 1 still bound to connection 99 and
connection 7 at slot 0: input for the C6 counterexample. -/
def c6Lobby : Lobby :=
  { id := "C6ROOM", answer := demoAnswer, round := 2, maxRounds := 5,
    players := fun i => if i = 1 then some 99 else if i = 0 then some 7 else none,
    slots := freshSlots,
    history := [⟨['S', 'T', 'O', 'N', 'E'],
                 scoreGuess ['S', 'T', 'O', 'N', 'E'] demoAnswer, false⟩],
    inProgress := false }

/-- An in-progress lobby with slot 2 locked by connection 7. -/
def c3Lobby : Lobby :=
  { id := "C3ROOM", answer := demoAnswer, round := 0, maxRounds := 5,
    players := fun i => if i = 2 then some 7 else none,
    slots :=
      [emptySlot, emptySlot,
       { locked := true, letter := ['Q'], byClientId := some (Owner.client 7) },
       emptySlot, emptySlot],
    history := [], inProgress := true }

/-- The system around `c3Lobby`, with connection 7 at slot 2. -/
def c3Sys : Sys :=
  { lobby := c3Lobby,
    connSlot := fun d => if d = 7 then some 2 else none,
    registered := true }

/-- The duplicate-letter oracle pair from the specification. -/
def speedGuess : List Char := ['S', 'P', 'E', 'E', 'D']

def eraseAnswer : List Char := ['E', 'R', 'A', 'S', 'E']

/-- `demoSys5` after connection `7` submitted `X` into slot 0, resolving the
row as the non-winning guess `XRANE` and advancing to round 1. -/
def demoLoseSys : Sys := submitSys allowAll demoSys5 7 0 ['X'] demoAnswer

/-! ### Scoring engine lemmas -/

theorem isWord5_length {w : List Char} (h : isWord5 w = true) : w.length = 5 := by
  simp [isWord5] at h
  exact h.1

theorem isWord5_upper {w : List Char} (h : isWord5 w = true) :
    ∀ c ∈ w, isUpperAZ c = true := by
  simp [isWord5, List.all_eq_true] at h
  exact h.2

theorem pass1_fst_length (g a : List Char) (rem : Char → Nat) :
    (pass1 g a rem).1.length = min g.length a.length := by
  induction g generalizing a rem with
  | nil => cases a <;> simp [pass1]
  | cons gi g ih =>
    cases a with
    | nil => simp [pass1]
    | cons ai a =>
      by_cases h : gi = ai <;>
        simp [pass1, h, ih, Nat.succ_min_succ]

theorem pass2_length (g : List Char) (res : List Color) (rem : Char → Nat) :
    (pass2 g res rem).length = min g.length res.length := by
  induction g generalizing res rem with
  | nil => cases res <;> simp [pass2]
  | cons gi g ih =>
    cases res with
    | nil => simp [pass2]
    | cons r res =>
      by_cases h : r = Color.correct
      · simp [pass2, h, ih, Nat.succ_min_succ]
      · by_cases h2 : rem gi > 0 <;> simp [pass2, h, h2, ih, Nat.succ_min_succ]

theorem pass1_no_present (ch : Char) (g a : List Char) (rem : Char → Nat) :
    colorCountFor ch Color.present g (pass1 g a rem).1 = 0 := by
  induction g generalizing a rem with
  | nil => cases a <;> simp [pass1, colorCountFor]
  | cons gi g ih =>
    cases a with
    | nil => simp [pass1, colorCountFor]
    | cons ai a =>
      by_cases h : gi = ai <;> simp [pass1, h, colorCountFor, ih]

theorem pass1_correct_add_rem_le (ch : Char) (g a : List Char) (rem : Char → Nat) :
    colorCountFor ch Color.correct g (pass1 g a rem).1 + (pass1 g a rem).2 ch
      ≤ rem ch + countCh ch a := by
  induction g generalizing a rem with
  | nil => cases a <;> simp [pass1, colorCountFor]
  | cons gi g ih =>
    cases a with
    | nil => simp [pass1, colorCountFor]
    | cons ai a =>
      by_cases h : gi = ai
      · subst h
        by_cases hc : gi = ch
        · subst hc
          have H := ih a rem
          simp [pass1, colorCountFor, countCh]
          omega
        · have H := ih a rem
          simp [pass1, colorCountFor, countCh, hc, Ne.symm hc]
          omega
      · by_cases hc : ai = ch
        · subst hc
          have H := ih a (fun c => if c = ai then rem c + 1 else rem c)
          simp [pass1, colorCountFor, countCh, h] at H ⊢
          omega
        · have H := ih a (fun c => if c = ai then rem c + 1 else rem c)
          simp [pass1, colorCountFor, countCh, h, hc, Ne.symm hc] at H ⊢
          omega

theorem pass2_present_le (ch : Char) (g : List Char) (res : List Color)
    (rem : Char → Nat) :
    colorCountFor ch Color.present g (pass2 g res rem)
      ≤ rem ch + colorCountFor ch Color.present g res := by
  induction g generalizing res rem with
  | nil => cases res <;> simp [pass2, colorCountFor]
  | cons gi g ih =>
    cases res with
    | nil => simp [pass2, colorCountFor]
    | cons r res =>
      by_cases h : r = Color.correct
      · have H := ih res rem
        simp [pass2, colorCountFor, h]
        omega
      · by_cases h2 : rem gi > 0
        · by_cases hc : gi = ch
          · subst hc
            have H := ih res (fun c => if c = gi then rem c - 1 else rem c)
            simp [pass2, colorCountFor, h, h2] at H ⊢
            omega
          · have H := ih res (fun c => if c = gi then rem c - 1 else rem c)
            simp [pass2, colorCountFor, h, h2, hc, Ne.symm hc] at H ⊢
            omega
        · have H := ih res rem
          simp [pass2, colorCountFor, h, h2]
          omega

theorem pass2_correct_eq (ch : Char) (g : List Char) (res : List Color)
    (rem : Char → Nat) :
    colorCountFor ch Color.correct g (pass2 g res rem)
      = colorCountFor ch Color.correct g res := by
  induction g generalizing res rem with
  | nil => cases res <;> simp [pass2, colorCountFor]
  | cons gi g ih =>
    cases res with
    | nil => simp [pass2, colorCountFor]
    | cons r res =>
      by_cases h : r = Color.correct
      · simp [pass2, colorCountFor, h, ih]
      · by_cases h2 : rem gi > 0 <;> simp [pass2, colorCountFor, h, h2, ih]

/-- C1: for every guess and answer that are both strings of exactly 5
uppercase letters, `scoreGuess` returns exactly 5 classifications, each one
of correct/present/absent, computed by the two-pass rule (`pass1` then
`pass2` over the remaining-count table), and consequently, for every
letter, the number of positions marked correct or present for that letter
never exceeds its occurrence count in the answer. -/
theorem C1_scoreGuess_two_pass (guess answer : List Char)
    (hg : isWord5 guess = true) (ha : isWord5 answer = true) :
    (scoreGuess guess answer).length = 5 ∧
    (∀ col ∈ scoreGuess guess answer,
        col = Color.correct ∨ col = Color.present ∨ col = Color.absent) ∧
    scoreGuess guess answer =
      pass2 guess (pass1 guess answer (fun _ => 0)).1
        (pass1 guess answer (fun _ => 0)).2 ∧
    ∀ ch : Char,
      colorCountFor ch Color.correct guess (scoreGuess guess answer)
        + colorCountFor ch Color.present guess (scoreGuess guess answer)
      ≤ countCh ch answer := by
  have hga := isWord5_length hg
  have haa := isWord5_length ha
  have hsg : scoreGuess guess answer =
      pass2 guess (pass1 guess answer (fun _ => 0)).1
        (pass1 guess answer (fun _ => 0)).2 := by
    unfold scoreGuess
    simp [haa]
  refine ⟨?_, ?_, hsg, ?_⟩
  · rw [hsg, pass2_length, pass1_fst_length, hga, haa]
    decide
  · intro col _
    cases col <;> simp
  · intro ch
    have h1 := pass2_correct_eq ch guess (pass1 guess answer (fun _ => 0)).1
      (pass1 guess answer (fun _ => 0)).2
    have h2 := pass2_present_le ch guess (pass1 guess answer (fun _ => 0)).1
      (pass1 guess answer (fun _ => 0)).2
    have h3 := pass1_no_present ch guess answer (fun _ => 0)
    have h4' : colorCountFor ch Color.correct guess
          (pass1 guess answer (fun _ => 0)).1
        + (pass1 guess answer (fun _ => 0)).2 ch ≤ 0 + countCh ch answer :=
      pass1_correct_add_rem_le ch guess answer (fun _ => 0)
    rw [hsg]
    omega

/-- C1 witness: the SPEED-versus-ERASE duplicate-letter oracle case. -/
theorem C1_scoreGuess_two_pass_witness :
    (isWord5 speedGuess = true ∧ isWord5 eraseAnswer = true) ∧
    ((scoreGuess speedGuess eraseAnswer).length = 5 ∧
     (∀ col ∈ scoreGuess speedGuess eraseAnswer,
         col = Color.correct ∨ col = Color.present ∨ col = Color.absent) ∧
     scoreGuess speedGuess eraseAnswer =
       pass2 speedGuess (pass1 speedGuess eraseAnswer (fun _ => 0)).1
         (pass1 speedGuess eraseAnswer (fun _ => 0)).2 ∧
     ∀ ch : Char,
       colorCountFor ch Color.correct speedGuess (scoreGuess speedGuess eraseAnswer)
         + colorCountFor ch Color.present speedGuess (scoreGuess speedGuess eraseAnswer)
       ≤ countCh ch eraseAnswer) :=
  ⟨⟨by decide, by decide⟩,
    C1_scoreGuess_two_pass speedGuess eraseAnswer (by decide) (by decide)⟩

/-- C9 counterexample: the guard in `scoreGuess` tests only the length of
the answer, not that its characters are letters.  For the answer
`"A1BCD"` — a 5-character value that is not a string of 5 letters — the
guess `"AXXXX"` scores `correct` at position 0, not all-absent. -/
theorem C9_counterexample :
    isWord5 ['A', 'X', 'X', 'X', 'X'] = true ∧
    (['A', '1', 'B', 'C', 'D'] : List Char).length = 5 ∧
    isWord5 ['A', '1', 'B', 'C', 'D'] = false ∧
    scoreGuess ['A', 'X', 'X', 'X', 'X'] ['A', '1', 'B', 'C', 'D'] ≠
      List.replicate 5 Color.absent := by
  decide

/-- C9 amended: for every guess and every answer value whose length is not
exactly 5, `scoreGuess` does not fail and returns the all-absent 5-element
sequence. -/
theorem C9_degenerate_answer (guess answer : List Char)
    (h : answer.length ≠ 5) :
    scoreGuess guess answer = List.replicate 5 Color.absent := by
  unfold scoreGuess
  simp [h]

/-- C9 witness: a 3-character answer value. -/
theorem C9_degenerate_answer_witness :
    (['A', 'B', 'C'] : List Char).length ≠ 5 ∧
    scoreGuess ['C', 'R', 'A', 'N', 'E'] ['A', 'B', 'C'] =
      List.replicate 5 Color.absent :=
  ⟨by decide, C9_degenerate_answer _ _ (by decide)⟩

/-! ### List and character helper lemmas -/

theorem getD_mem_of_lt {α : Type} (l : List α) (i : Nat) (d : α)
    (h : i < l.length) : l.getD i d ∈ l := by
  induction l generalizing i with
  | nil => simp at h
  | cons x xs ih =>
    cases i with
    | zero => simp
    | succ n =>
      simp only [List.getD_cons_succ]
      exact List.mem_cons_of_mem x (ih n (by simpa using h))

theorem filter_length_all {α : Type} (p : α → Bool) (l : List α)
    (h : (l.filter p).length = l.length) : ∀ a ∈ l, p a = true := by
  induction l with
  | nil => simp
  | cons x xs ih =>
    by_cases hx : p x = true
    · simp only [List.filter_cons, hx, if_true, List.length_cons] at h
      intro a ha
      rcases List.mem_cons.mp ha with rfl | ha'
      · exact hx
      · exact ih (by omega) a ha'
    · exfalso
      have hle := List.length_filter_le p xs
      simp only [List.filter_cons, hx, if_false, Bool.false_eq_true,
        List.length_cons] at h
      omega

theorem jsToUpper_of_upper {c : Char} (h : isUpperAZ c = true) : jsToUpper c = c := by
  simp only [isUpperAZ, Bool.and_eq_true, decide_eq_true_eq] at h
  unfold jsToUpper
  rw [if_neg]
  simp only [Bool.and_eq_true, decide_eq_true_eq, not_and]
  exact fun hlo => absurd hlo (not_le.mpr (lt_of_le_of_lt h.2 (by decide)))

theorem joinStr_word (ls : List Slot)
    (h : ∀ s ∈ ls, isLetter1 s.letter = true) :
    (joinStr (ls.map fun s => s.letter.map jsToUpper)).length = ls.length ∧
    ∀ c ∈ joinStr (ls.map fun s => s.letter.map jsToUpper), isUpperAZ c = true := by
  induction ls with
  | nil => simp [joinStr]
  | cons s ls ih =>
    have hs := h s (by simp)
    obtain ⟨c, hc, hup⟩ : ∃ c, s.letter = [c] ∧ isUpperAZ c = true := by
      cases hletter : s.letter with
      | nil => simp [isLetter1, hletter] at hs
      | cons c rest =>
        cases rest with
        | nil => exact ⟨c, rfl, by simpa [isLetter1, hletter] using hs⟩
        | cons _ _ => simp [isLetter1, hletter] at hs
    have htail := ih fun s hs' => h s (List.mem_cons_of_mem _ hs')
    have hstep : joinStr ((s :: ls).map fun s => s.letter.map jsToUpper)
        = [jsToUpper c] ++ joinStr (ls.map fun s => s.letter.map jsToUpper) := by
      simp only [List.map_cons, hc, List.map_singleton]
      rfl
    constructor
    · rw [hstep]
      simp [htail.1]
    · intro d hd
      rw [hstep] at hd
      rcases List.mem_append.mp hd with hd | hd
      · rw [List.mem_singleton.mp hd, jsToUpper_of_upper hup]
        exact hup
      · exact htail.2 d hd

/-! ### Handler frame and branch lemmas -/

theorem ensureAnswer_eq (l : Lobby) (na : List Char) (h : l.answer.length = 5) :
    ensureAnswer l na = l := by
  unfold ensureAnswer
  simp [h]

theorem ensureAnswer_players (l : Lobby) (na : List Char) :
    (ensureAnswer l na).players = l.players := by
  unfold ensureAnswer
  split <;> rfl

theorem ensureAnswer_slots (l : Lobby) (na : List Char) :
    (ensureAnswer l na).slots = l.slots := by
  unfold ensureAnswer
  split <;> rfl

theorem ensureAnswer_id (l : Lobby) (na : List Char) :
    (ensureAnswer l na).id = l.id := by
  unfold ensureAnswer
  split <;> rfl

theorem ensureAnswer_maxRounds (l : Lobby) (na : List Char) :
    (ensureAnswer l na).maxRounds = l.maxRounds := by
  unfold ensureAnswer
  split <;> rfl

theorem ensureAnswer_round (l : Lobby) (na : List Char) :
    (ensureAnswer l na).round = l.round := by
  unfold ensureAnswer
  split <;> rfl

theorem ensureAnswer_history (l : Lobby) (na : List Char) :
    (ensureAnswer l na).history = l.history := by
  unfold ensureAnswer
  split <;> rfl

theorem ensureAnswer_inProgress (l : Lobby) (na : List Char) :
    (ensureAnswer l na).inProgress = l.inProgress := by
  unfold ensureAnswer
  split <;> rfl

theorem evaluateIfReady_waiting (allowed : List Char → Bool) (l : Lobby)
    (na : List Char) (hans : l.answer.length = 5) (h5 : lockedCount l < 5) :
    evaluateIfReady allowed l na = (l, [GameEvent.waiting (waitingIdx l)]) := by
  unfold evaluateIfReady
  rw [ensureAnswer_eq l na hans]
  simp [h5]

theorem evaluateIfReady_rowUnlocked (allowed : List Char → Bool) (l : Lobby)
    (na : List Char) (hans : l.answer.length = 5) (h5 : ¬ lockedCount l < 5)
    (hbad : isWord5 (assembleGuess l) = false) :
    evaluateIfReady allowed l na =
      ({ l with slots := l.slots.map fun s => { s with locked := false } },
       [GameEvent.rowUnlocked (l.slots.map fun s => { s with locked := false })]) := by
  unfold evaluateIfReady
  rw [ensureAnswer_eq l na hans]
  simp [h5, hbad]

theorem evaluateIfReady_win (allowed : List Char → Bool) (l : Lobby)
    (na : List Char) (hans : l.answer.length = 5) (h5 : ¬ lockedCount l < 5)
    (hok : isWord5 (assembleGuess l) = true)
    (hwin : assembleGuess l = l.answer) :
    evaluateIfReady allowed l na =
      ({ l with
          history := l.history ++
            [(⟨assembleGuess l, scoreGuess (assembleGuess l) l.answer,
               !allowed (assembleGuess l)⟩ : ResolvedGuess)],
          inProgress := false },
       [GameEvent.reveal (assembleGuess l) (scoreGuess (assembleGuess l) l.answer)
          true l.round (!allowed (assembleGuess l)),
        GameEvent.gameOver solvedReason l.answer]) := by
  have hok' : isWord5 l.answer = true := hwin ▸ hok
  unfold evaluateIfReady
  rw [ensureAnswer_eq l na hans]
  simp [h5, hok, hok', hwin]

theorem evaluateIfReady_exhaust (allowed : List Char → Bool) (l : Lobby)
    (na : List Char) (hans : l.answer.length = 5) (h5 : ¬ lockedCount l < 5)
    (hok : isWord5 (assembleGuess l) = true)
    (hlose : assembleGuess l ≠ l.answer) (hend : l.maxRounds ≤ l.round + 1) :
    evaluateIfReady allowed l na =
      ({ l with
          history := l.history ++
            [(⟨assembleGuess l, scoreGuess (assembleGuess l) l.answer,
               !allowed (assembleGuess l)⟩ : ResolvedGuess)],
          round := l.round + 1,
          inProgress := false },
       [GameEvent.reveal (assembleGuess l) (scoreGuess (assembleGuess l) l.answer)
          false l.round (!allowed (assembleGuess l)),
        GameEvent.gameOver outOfRoundsReason l.answer]) := by
  unfold evaluateIfReady
  rw [ensureAnswer_eq l na hans]
  simp [h5, hok, hlose, hend]

theorem evaluateIfReady_nextRow (allowed : List Char → Bool) (l : Lobby)
    (na : List Char) (hans : l.answer.length = 5) (h5 : ¬ lockedCount l < 5)
    (hok : isWord5 (assembleGuess l) = true)
    (hlose : assembleGuess l ≠ l.answer) (hmore : l.round + 1 < l.maxRounds) :
    evaluateIfReady allowed l na =
      ({ l with
          history := l.history ++
            [(⟨assembleGuess l, scoreGuess (assembleGuess l) l.answer,
               !allowed (assembleGuess l)⟩ : ResolvedGuess)],
          round := l.round + 1,
          slots := freshSlots },
       [GameEvent.reveal (assembleGuess l) (scoreGuess (assembleGuess l) l.answer)
          false l.round (!allowed (assembleGuess l)),
        GameEvent.newRow (l.round + 1) freshSlots]) := by
  unfold evaluateIfReady
  rw [ensureAnswer_eq l na hans]
  simp [h5, hok, hlose, Nat.not_le.mpr hmore]

theorem submitLetter_gameOver (allowed : List Char → Bool) (l : Lobby)
    (conn : ConnId) (slot : Nat) (letterRaw na : List Char)
    (hip : l.inProgress = false) :
    submitLetter allowed l conn slot letterRaw na
      = (l, [GameEvent.errorTo conn gameOverMsg]) := by
  unfold submitLetter
  simp [hip]

theorem submitLetter_badLetter (allowed : List Char → Bool) (l : Lobby)
    (conn : ConnId) (slot : Nat) (letterRaw na : List Char)
    (hip : l.inProgress = true) (hans : l.answer.length = 5)
    (hlet : isLetter1 ((jsTrim letterRaw).map jsToUpper) = false) :
    submitLetter allowed l conn slot letterRaw na
      = (l, [GameEvent.errorTo conn oneLetterMsg]) := by
  unfold submitLetter
  rw [ensureAnswer_eq l na hans]
  simp [hip, hlet]

theorem submitLetter_locked (allowed : List Char → Bool) (l : Lobby)
    (conn : ConnId) (slot : Nat) (letterRaw na : List Char)
    (hip : l.inProgress = true) (hans : l.answer.length = 5)
    (hlet : isLetter1 ((jsTrim letterRaw).map jsToUpper) = true)
    (hlocked : (l.slots.getD slot emptySlot).locked = true) :
    submitLetter allowed l conn slot letterRaw na = (l, []) := by
  unfold submitLetter
  rw [ensureAnswer_eq l na hans]
  simp only [List.getD_eq_getElem?_getD] at hlocked
  simp [hip, hlet, hlocked]

theorem submitLetter_locks (allowed : List Char → Bool) (l : Lobby)
    (conn : ConnId) (slot : Nat) (letterRaw na : List Char)
    (hip : l.inProgress = true) (hans : l.answer.length = 5)
    (hlet : isLetter1 ((jsTrim letterRaw).map jsToUpper) = true)
    (hlocked : (l.slots.getD slot emptySlot).locked = false) :
    submitLetter allowed l conn slot letterRaw na =
      ((evaluateIfReady allowed
          { l with
              slots := l.slots.set slot
                (Slot.mk true ((jsTrim letterRaw).map jsToUpper)
                  (some (Owner.client conn))) } na).1,
        GameEvent.slotUpdate slot
          (Slot.mk true ((jsTrim letterRaw).map jsToUpper)
            (some (Owner.client conn))) ::
          (evaluateIfReady allowed
            { l with
                slots := l.slots.set slot
                  (Slot.mk true ((jsTrim letterRaw).map jsToUpper)
                    (some (Owner.client conn))) } na).2) := by
  unfold submitLetter
  rw [ensureAnswer_eq l na hans]
  simp only [List.getD_eq_getElem?_getD] at hlocked
  simp [hip, hlet, hlocked]

theorem fillSlot_notInProgress (allowed : List Char → Bool) (l : Lobby)
    (conn : ConnId) (i : Nat) (na : List Char) (hip : l.inProgress = false) :
    fillSlotWithAnswer allowed l conn i na = (l, []) := by
  unfold fillSlotWithAnswer
  simp [hip]

theorem fillSlot_badIndex (allowed : List Char → Bool) (l : Lobby)
    (conn : ConnId) (i : Nat) (na : List Char)
    (hip : l.inProgress = true) (hans : l.answer.length = 5) (hi : ¬ i < 5) :
    fillSlotWithAnswer allowed l conn i na
      = (l, [GameEvent.errorTo conn invalidSlotMsg]) := by
  unfold fillSlotWithAnswer
  rw [ensureAnswer_eq l na hans]
  simp [hip, hi]

theorem fillSlot_occupied (allowed : List Char → Bool) (l : Lobby)
    (conn : ConnId) (i : Nat) (na : List Char)
    (hip : l.inProgress = true) (hans : l.answer.length = 5) (hi : i < 5)
    (hocc : playersHas l.players i = true) :
    fillSlotWithAnswer allowed l conn i na
      = (l, [GameEvent.errorTo conn occupiedMsg]) := by
  unfold fillSlotWithAnswer
  rw [ensureAnswer_eq l na hans]
  simp [hip, hi, hocc]

theorem fillSlot_locked (allowed : List Char → Bool) (l : Lobby)
    (conn : ConnId) (i : Nat) (na : List Char)
    (hip : l.inProgress = true) (hans : l.answer.length = 5) (hi : i < 5)
    (hocc : playersHas l.players i = false)
    (hlocked : (l.slots.getD i emptySlot).locked = true) :
    fillSlotWithAnswer allowed l conn i na = (l, []) := by
  unfold fillSlotWithAnswer
  rw [ensureAnswer_eq l na hans]
  simp only [List.getD_eq_getElem?_getD] at hlocked
  simp [hip, hi, hocc, hlocked]

theorem fillSlot_locks (allowed : List Char → Bool) (l : Lobby)
    (conn : ConnId) (i : Nat) (na : List Char)
    (hip : l.inProgress = true) (hans : l.answer.length = 5) (hi : i < 5)
    (hocc : playersHas l.players i = false)
    (hlocked : (l.slots.getD i emptySlot).locked = false) :
    fillSlotWithAnswer allowed l conn i na =
      ((evaluateIfReady allowed
          { l with
              slots := l.slots.set i
                (Slot.mk true [l.answer.getD i (Char.ofNat 0)]
                  (some Owner.auto)) } na).1,
        GameEvent.slotUpdate i
          (Slot.mk true [l.answer.getD i (Char.ofNat 0)] (some Owner.auto)) ::
          (evaluateIfReady allowed
            { l with
                slots := l.slots.set i
                  (Slot.mk true [l.answer.getD i (Char.ofNat 0)]
                    (some Owner.auto)) } na).2) := by
  unfold fillSlotWithAnswer
  rw [ensureAnswer_eq l na hans]
  simp only [List.getD_eq_getElem?_getD] at hlocked
  simp [hip, hi, hocc, hlocked]

theorem previewLetter_notInProgress (l : Lobby) (conn : ConnId) (slot : Nat)
    (letterRaw : List Char) (hip : l.inProgress = false) :
    previewLetter l conn slot letterRaw = (l, []) := by
  unfold previewLetter
  simp [hip]

theorem previewLetter_locked (l : Lobby) (conn : ConnId) (slot : Nat)
    (letterRaw : List Char) (hip : l.inProgress = true)
    (hlocked : (l.slots.getD slot emptySlot).locked = true) :
    previewLetter l conn slot letterRaw = (l, []) := by
  unfold previewLetter
  simp only [List.getD_eq_getElem?_getD] at hlocked
  simp [hip, hlocked]

theorem previewLetter_sets (l : Lobby) (conn : ConnId) (slot : Nat)
    (letterRaw : List Char) (hip : l.inProgress = true)
    (hlocked : (l.slots.getD slot emptySlot).locked = false) :
    previewLetter l conn slot letterRaw =
      ({ l with
          slots := l.slots.set slot
            (Slot.mk false
              (if isLetter1 (letterRaw.map jsToUpper) then
                letterRaw.map jsToUpper
              else [])
              (some (Owner.client conn))) },
       [GameEvent.slotUpdate slot
          (Slot.mk false
            (if isLetter1 (letterRaw.map jsToUpper) then
              letterRaw.map jsToUpper
            else [])
            (some (Owner.client conn)))]) := by
  unfold previewLetter
  simp only [List.getD_eq_getElem?_getD] at hlocked
  simp [hip, hlocked]

theorem unlockMySlot_notInProgress (l : Lobby) (slot : Nat)
    (hip : l.inProgress = false) : unlockMySlot l slot = (l, []) := by
  unfold unlockMySlot
  simp [hip]

theorem unlockMySlot_clears (l : Lobby) (slot : Nat) (hip : l.inProgress = true) :
    unlockMySlot l slot =
      ({ l with slots := l.slots.set slot emptySlot },
       [GameEvent.slotUpdate slot emptySlot]) := by
  unfold unlockMySlot
  simp [hip]

theorem claimSlot_notInProgress (l : Lobby) (conn : ConnId) (cur target : Nat)
    (hip : l.inProgress = false) : claimSlot l conn cur target = (l, cur, []) := by
  unfold claimSlot
  simp [hip]

theorem claimSlot_badIndex (l : Lobby) (conn : ConnId) (cur target : Nat)
    (hip : l.inProgress = true) (ht : ¬ target < 5) :
    claimSlot l conn cur target
      = (l, cur, [GameEvent.errorTo conn invalidSlotMsg]) := by
  unfold claimSlot
  simp [hip, ht]

theorem claimSlot_taken (l : Lobby) (conn : ConnId) (cur target : Nat)
    (hip : l.inProgress = true) (ht : target < 5)
    (hocc : playersHas l.players target = true) :
    claimSlot l conn cur target
      = (l, cur, [GameEvent.errorTo conn slotTakenMsg]) := by
  unfold claimSlot
  simp [hip, ht, hocc]

theorem claimSlot_lockedRow (l : Lobby) (conn : ConnId) (cur target : Nat)
    (hip : l.inProgress = true) (ht : target < 5)
    (hocc : playersHas l.players target = false)
    (hcur : (l.slots.getD cur emptySlot).locked = true)
    (hcount : lockedCount l < 5) :
    claimSlot l conn cur target
      = (l, cur, [GameEvent.errorTo conn lockedRowMsg]) := by
  unfold claimSlot
  simp only [List.getD_eq_getElem?_getD] at hcur
  simp [hip, ht, hocc, hcur, hcount]

theorem claimSlot_moves (l : Lobby) (conn : ConnId) (cur target : Nat)
    (hip : l.inProgress = true) (ht : target < 5)
    (hocc : playersHas l.players target = false)
    (hcur : (l.slots.getD cur emptySlot).locked = false) :
    claimSlot l conn cur target =
      ({ l with
          players := playersSet
            (if l.players cur = some conn then playersDelete l.players cur
             else l.players) target conn,
          slots := l.slots.set cur emptySlot },
       target,
       [GameEvent.slotUpdate cur emptySlot,
        GameEvent.slotClaimedTo conn target, GameEvent.roster]) := by
  unfold claimSlot
  simp only [List.getD_eq_getElem?_getD] at hcur
  simp [hip, ht, hocc, hcur]

theorem claimSlot_movesLocked (l : Lobby) (conn : ConnId) (cur target : Nat)
    (hip : l.inProgress = true) (ht : target < 5)
    (hocc : playersHas l.players target = false)
    (hcur : (l.slots.getD cur emptySlot).locked = true)
    (hcount : ¬ lockedCount l < 5) :
    claimSlot l conn cur target =
      ({ l with
          players := playersSet
            (if l.players cur = some conn then playersDelete l.players cur
             else l.players) target conn },
       target,
       [GameEvent.slotClaimedTo conn target, GameEvent.roster]) := by
  unfold claimSlot
  simp only [List.getD_eq_getElem?_getD] at hcur
  simp [hip, ht, hocc, hcur, hcount]

theorem handleRequestReset_inProgress (l : Lobby) (na : List Char)
    (hip : l.inProgress = true) : handleRequestReset l na = (l, []) := by
  unfold handleRequestReset
  simp [hip]

theorem handleRequestReset_terminal (l : Lobby) (na : List Char)
    (hip : l.inProgress = false) (hna : na.length = 5) :
    handleRequestReset l na =
      ({ l with
          answer := na, round := 0, inProgress := true, history := [],
          slots := freshSlots },
       [GameEvent.resetEvent 0 freshSlots]) := by
  have hfix : ensureAnswer
      { l with
          answer := na, round := 0, inProgress := true, history := [],
          slots := freshSlots } na
      = { l with
          answer := na, round := 0, inProgress := true, history := [],
          slots := freshSlots } :=
    ensureAnswer_eq _ na hna
  unfold handleRequestReset resetLobby
  simp [hip, hfix]

theorem connectionAssign_spec (l : Lobby) (a : Nat)
    (h : connectionAssign l = some a) : a < 5 ∧ l.players a = none := by
  unfold connectionAssign at h
  have hmem : a ∈ (List.range 5).filter fun i => !playersHas l.players i :=
    List.mem_of_mem_head? (by simp [h])
  have h1 := List.mem_range.mp (List.mem_of_mem_filter hmem)
  have h2 := List.of_mem_filter hmem
  refine ⟨h1, ?_⟩
  cases hpa : l.players a with
  | none => rfl
  | some d => simp [playersHas, hpa] at h2

theorem wsClose_unregistered (s : Sys) (c : ConnId) (slot : Nat)
    (hreg : s.registered = false) :
    wsClose s c slot =
      ({ s with connSlot := fun d => if d = c then none else s.connSlot d }, []) := by
  unfold wsClose
  simp [hreg]

theorem wsClose_bound (s : Sys) (c : ConnId) (slot : Nat)
    (hreg : s.registered = true) (hbound : s.lobby.players slot = some c) :
    wsClose s c slot =
      ({ lobby := { s.lobby with
            players := playersDelete s.lobby.players slot,
            slots :=
              if !(s.lobby.slots.getD slot emptySlot).locked then
                s.lobby.slots.set slot emptySlot
              else s.lobby.slots },
         connSlot := fun d => if d = c then none else s.connSlot d,
         registered :=
           !(playersSize (playersDelete s.lobby.players slot) == 0 &&
             s.lobby.history.isEmpty) },
       [GameEvent.roster]) := by
  unfold wsClose
  simp [hreg, hbound]

theorem wsClose_unbound (s : Sys) (c : ConnId) (slot : Nat)
    (hreg : s.registered = true) (hbound : s.lobby.players slot ≠ some c) :
    wsClose s c slot =
      ({ lobby := s.lobby,
         connSlot := fun d => if d = c then none else s.connSlot d,
         registered := !(playersSize s.lobby.players == 0 && s.lobby.history.isEmpty) },
       []) := by
  unfold wsClose
  simp [hreg, hbound]

/-! ### Invariant preservation -/

theorem evaluateIfReady_inv (allowed : List Char → Bool) (l : Lobby)
    (na : List Char) (hl : LobbyInv l) (hip : l.inProgress = true) :
    LobbyInv (evaluateIfReady allowed l na).1 ∧
    (evaluateIfReady allowed l na).1.players = l.players ∧
    (evaluateIfReady allowed l na).1.id = l.id := by
  have hans : l.answer.length = 5 := isWord5_length hl.answerOk
  by_cases h5 : lockedCount l < 5
  · rw [evaluateIfReady_waiting allowed l na hans h5]
    exact ⟨hl, rfl, rfl⟩
  · by_cases hok : isWord5 (assembleGuess l) = true
    · by_cases hwin : assembleGuess l = l.answer
      · rw [evaluateIfReady_win allowed l na hans h5 hok hwin]
        refine ⟨⟨hl.slotsLen, hl.answerOk, hl.maxR, hl.roundLe, ?_, hl.slotOk⟩,
          rfl, rfl⟩
        intro h
        simp at h
      · by_cases hend : l.maxRounds ≤ l.round + 1
        · rw [evaluateIfReady_exhaust allowed l na hans h5 hok hwin hend]
          refine ⟨⟨hl.slotsLen, hl.answerOk, hl.maxR, ?_, ?_, hl.slotOk⟩, rfl, rfl⟩
          · have := hl.roundLt hip
            simp only []
            omega
          · intro h
            simp at h
        · have hmore : l.round + 1 < l.maxRounds := by omega
          rw [evaluateIfReady_nextRow allowed l na hans h5 hok hwin hmore]
          refine ⟨⟨?_, hl.answerOk, hl.maxR, by simp only []; omega,
            fun _ => by simp only []; omega, ?_⟩, rfl, rfl⟩
          · simp [freshSlots]
          · intro sl hsl
            have hemp : sl = emptySlot := List.eq_of_mem_replicate hsl
            subst hemp
            intro h
            simp [emptySlot] at h
    · have hbad : isWord5 (assembleGuess l) = false := by simpa using hok
      rw [evaluateIfReady_rowUnlocked allowed l na hans h5 hbad]
      refine ⟨⟨by simp [hl.slotsLen], hl.answerOk, hl.maxR, hl.roundLe,
        hl.roundLt, ?_⟩, rfl, rfl⟩
      intro sl hsl
      obtain ⟨t, hmem, rfl⟩ := List.mem_map.mp hsl
      intro h
      simp at h

theorem createLobby_eq (id : String) (na : List Char) (hna : na.length = 5) :
    createLobby id na =
      { id := id, answer := na, round := 0, maxRounds := 5,
        players := fun _ => none, slots := freshSlots, history := [],
        inProgress := true } :=
  ensureAnswer_eq _ na hna

theorem inv_init (id : String) (na : List Char) (hna : isWord5 na = true) :
    Inv (initSys id na) := by
  have hna5 : na.length = 5 := isWord5_length hna
  constructor
  · rw [show (initSys id na).lobby = createLobby id na from rfl,
      createLobby_eq id na hna5]
    refine ⟨by simp [freshSlots], hna, rfl, Nat.zero_le _,
      fun _ => Nat.zero_lt_succ 4, ?_⟩
    intro sl hsl
    have hemp : sl = emptySlot := List.eq_of_mem_replicate hsl
    subst hemp
    intro h
    simp [emptySlot] at h
  · intro c i hdi
    simp [initSys] at hdi
  · intro i c hpi
    rw [show (initSys id na).lobby = createLobby id na from rfl,
      createLobby_eq id na hna5] at hpi
    simp at hpi
  · intro h
    simp [initSys] at h

theorem playersSize_zero {ps : Players} (h : playersSize ps = 0) :
    ∀ i < 5, ps i = none := by
  intro i hi
  unfold playersSize at h
  have hfil := List.length_eq_zero.mp h
  cases hpi : ps i with
  | none => rfl
  | some d =>
    exfalso
    have hmem : i ∈ (List.range 5).filter fun j => (ps j).isSome := by
      rw [List.mem_filter]
      exact ⟨List.mem_range.mpr hi, by simp [hpi]⟩
    rw [hfil] at hmem
    simp at hmem

theorem inv_connSlot_self {s : Sys} {c : ConnId} {cur : Nat} (hs : Inv s)
    (hconn : s.connSlot c = some cur) :
    Inv { s with connSlot := fun d => if d = c then some cur else s.connSlot d } := by
  refine ⟨hs.linv, ?_, ?_, ?_⟩
  · intro d i hdi
    by_cases hdc : d = c
    · subst hdc
      have hi : cur = i := by simpa using hdi
      subst hi
      exact hs.connBound d cur hconn
    · exact hs.connBound d i (by simpa [hdc] using hdi)
  · intro i d hpi
    have hold := hs.playerConn i d hpi
    by_cases hdc : d = c
    · subst hdc
      have hi : i = cur := by
        rw [hconn] at hold
        exact (Option.some.inj hold).symm
      subst hi
      simp
    · simpa [hdc] using hold
  · intro hregf
    exact absurd hconn (by simp [hs.unregEmpty hregf c])

theorem inv_connect {s : Sys} {c : ConnId} {assigned : Nat} (hs : Inv s)
    (hreg : s.registered = true) (hfresh : s.connSlot c = none)
    (hassign : connectionAssign s.lobby = some assigned) :
    Inv (connectSys s c assigned) := by
  obtain ⟨ha5, hanone⟩ := connectionAssign_spec s.lobby assigned hassign
  refine ⟨?_, ?_, ?_, ?_⟩
  · exact ⟨hs.linv.slotsLen, hs.linv.answerOk, hs.linv.maxR, hs.linv.roundLe,
      hs.linv.roundLt, hs.linv.slotOk⟩
  · intro d i hdi
    by_cases hdc : d = c
    · subst hdc
      have hi : assigned = i := by simpa [connectSys] using hdi
      subst hi
      refine ⟨ha5, ?_⟩
      simp [connectSys, playersSet]
    · have hdi' : s.connSlot d = some i := by simpa [connectSys, hdc] using hdi
      obtain ⟨hi5, hpi⟩ := hs.connBound d i hdi'
      refine ⟨hi5, ?_⟩
      have hne : i ≠ assigned := by
        intro heq
        subst heq
        simp [hanone] at hpi
      simpa [connectSys, playersSet, hne] using hpi
  · intro i d hpi
    by_cases hia : i = assigned
    · subst hia
      have hdc : c = d := by simpa [connectSys, playersSet] using hpi
      subst hdc
      simp [connectSys]
    · have hpi' : s.lobby.players i = some d := by
        simpa [connectSys, playersSet, hia] using hpi
      have hold := hs.playerConn i d hpi'
      have hdc : d ≠ c := by
        intro heq
        subst heq
        simp [hfresh] at hold
      simpa [connectSys, hdc] using hold
  · intro hregf
    rw [show (connectSys s c assigned).registered = s.registered from rfl, hreg]
      at hregf
    simp at hregf

theorem inv_preview {s : Sys} {c : ConnId} {slot : Nat} {letterRaw : List Char}
    (hs : Inv s) : Inv (previewSys s c slot letterRaw) := by
  cases hip : s.lobby.inProgress with
  | false =>
    have hr := previewLetter_notInProgress s.lobby c slot letterRaw hip
    simp only [previewSys, hr]
    exact hs
  | true =>
    by_cases hlocked : (s.lobby.slots.getD slot emptySlot).locked = true
    · have hr := previewLetter_locked s.lobby c slot letterRaw hip hlocked
      simp only [previewSys, hr]
      exact hs
    · have hl2 : (s.lobby.slots.getD slot emptySlot).locked = false := by
        simpa using hlocked
      have hr := previewLetter_sets s.lobby c slot letterRaw hip hl2
      simp only [previewSys, hr]
      refine ⟨⟨by simp [hs.linv.slotsLen], hs.linv.answerOk, hs.linv.maxR,
        hs.linv.roundLe, hs.linv.roundLt, ?_⟩,
        hs.connBound, hs.playerConn, hs.unregEmpty⟩
      intro sl hsl hlk
      rcases List.mem_or_eq_of_mem_set hsl with h | h
      · exact hs.linv.slotOk sl h hlk
      · subst h
        simp at hlk

theorem inv_unlock {s : Sys} {slot : Nat} (hs : Inv s) :
    Inv (unlockSys s slot) := by
  cases hip : s.lobby.inProgress with
  | false =>
    have hr := unlockMySlot_notInProgress s.lobby slot hip
    simp only [unlockSys, hr]
    exact hs
  | true =>
    have hr := unlockMySlot_clears s.lobby slot hip
    simp only [unlockSys, hr]
    refine ⟨⟨by simp [hs.linv.slotsLen], hs.linv.answerOk, hs.linv.maxR,
      hs.linv.roundLe, hs.linv.roundLt, ?_⟩,
      hs.connBound, hs.playerConn, hs.unregEmpty⟩
    intro sl hsl hlk
    rcases List.mem_or_eq_of_mem_set hsl with h | h
    · exact hs.linv.slotOk sl h hlk
    · subst h
      simp [emptySlot] at hlk

theorem inv_submit {allowed : List Char → Bool} {s : Sys} {c : ConnId}
    {slot : Nat} {letterRaw na : List Char} (hs : Inv s) :
    Inv (submitSys allowed s c slot letterRaw na) := by
  have hans : s.lobby.answer.length = 5 := isWord5_length hs.linv.answerOk
  cases hip : s.lobby.inProgress with
  | false =>
    have hr := submitLetter_gameOver allowed s.lobby c slot letterRaw na hip
    simp only [submitSys, hr]
    exact hs
  | true =>
    by_cases hlet : isLetter1 ((jsTrim letterRaw).map jsToUpper) = true
    · by_cases hlocked : (s.lobby.slots.getD slot emptySlot).locked = true
      · have hr := submitLetter_locked allowed s.lobby c slot letterRaw na
          hip hans hlet hlocked
        simp only [submitSys, hr]
        exact hs
      · have hl2 : (s.lobby.slots.getD slot emptySlot).locked = false := by
          simpa using hlocked
        have hr := submitLetter_locks allowed s.lobby c slot letterRaw na
          hip hans hlet hl2
        simp only [submitSys, hr]
        have hlinv2 : LobbyInv { s.lobby with
            slots := s.lobby.slots.set slot
              (Slot.mk true ((jsTrim letterRaw).map jsToUpper)
                (some (Owner.client c))) } := by
          refine ⟨by simp [hs.linv.slotsLen], hs.linv.answerOk, hs.linv.maxR,
            hs.linv.roundLe, hs.linv.roundLt, ?_⟩
          intro sl hsl hlk
          rcases List.mem_or_eq_of_mem_set hsl with h | h
          · exact hs.linv.slotOk sl h hlk
          · subst h
            exact hlet
        have hev := evaluateIfReady_inv allowed _ na hlinv2 hip
        refine ⟨hev.1, ?_, ?_, hs.unregEmpty⟩
        · intro d i hdi
          obtain ⟨hi5, hpi⟩ := hs.connBound d i hdi
          exact ⟨hi5, (congrFun hev.2.1 i).trans hpi⟩
        · intro i d hpi
          exact hs.playerConn i d ((congrFun hev.2.1 i).symm.trans hpi)
    · have hl3 : isLetter1 ((jsTrim letterRaw).map jsToUpper) = false := by
        simpa using hlet
      have hr := submitLetter_badLetter allowed s.lobby c slot letterRaw na
        hip hans hl3
      simp only [submitSys, hr]
      exact hs

theorem inv_fill {allowed : List Char → Bool} {s : Sys} {c : ConnId}
    {i : Nat} {na : List Char} (hs : Inv s) :
    Inv (fillSys allowed s c i na) := by
  have hans : s.lobby.answer.length = 5 := isWord5_length hs.linv.answerOk
  cases hip : s.lobby.inProgress with
  | false =>
    have hr := fillSlot_notInProgress allowed s.lobby c i na hip
    simp only [fillSys, hr]
    exact hs
  | true =>
    by_cases hi : i < 5
    · by_cases hocc : playersHas s.lobby.players i = true
      · have hr := fillSlot_occupied allowed s.lobby c i na hip hans hi hocc
        simp only [fillSys, hr]
        exact hs
      · have hocc' : playersHas s.lobby.players i = false := by simpa using hocc
        by_cases hlocked : (s.lobby.slots.getD i emptySlot).locked = true
        · have hr := fillSlot_locked allowed s.lobby c i na hip hans hi
            hocc' hlocked
          simp only [fillSys, hr]
          exact hs
        · have hl2 : (s.lobby.slots.getD i emptySlot).locked = false := by
            simpa using hlocked
          have hr := fillSlot_locks allowed s.lobby c i na hip hans hi hocc' hl2
          simp only [fillSys, hr]
          have hupch : isLetter1 [s.lobby.answer.getD i (Char.ofNat 0)] = true := by
            have hm : s.lobby.answer.getD i (Char.ofNat 0) ∈ s.lobby.answer :=
              getD_mem_of_lt _ _ _ (by omega)
            have := isWord5_upper hs.linv.answerOk _ hm
            simpa [isLetter1] using this
          have hlinv2 : LobbyInv { s.lobby with
              slots := s.lobby.slots.set i
                (Slot.mk true [s.lobby.answer.getD i (Char.ofNat 0)]
                  (some Owner.auto)) } := by
            refine ⟨by simp [hs.linv.slotsLen], hs.linv.answerOk, hs.linv.maxR,
              hs.linv.roundLe, hs.linv.roundLt, ?_⟩
            intro sl hsl hlk
            rcases List.mem_or_eq_of_mem_set hsl with h | h
            · exact hs.linv.slotOk sl h hlk
            · subst h
              exact hupch
          have hev := evaluateIfReady_inv allowed _ na hlinv2 hip
          refine ⟨hev.1, ?_, ?_, hs.unregEmpty⟩
          · intro d j hdj
            obtain ⟨hj5, hpj⟩ := hs.connBound d j hdj
            exact ⟨hj5, (congrFun hev.2.1 j).trans hpj⟩
          · intro j d hpj
            exact hs.playerConn j d ((congrFun hev.2.1 j).symm.trans hpj)
    · have hr := fillSlot_badIndex allowed s.lobby c i na hip hans hi
      simp only [fillSys, hr]
      exact hs

theorem inv_reqReset {s : Sys} {na : List Char} (hs : Inv s)
    (hna : isWord5 na = true) : Inv (reqResetSys s na) := by
  cases hip : s.lobby.inProgress with
  | true =>
    have hr := handleRequestReset_inProgress s.lobby na hip
    simp only [reqResetSys, hr]
    exact hs
  | false =>
    have hr := handleRequestReset_terminal s.lobby na hip (isWord5_length hna)
    simp only [reqResetSys, hr]
    refine ⟨⟨by simp [freshSlots], hna, hs.linv.maxR, ?_, ?_, ?_⟩,
      hs.connBound, hs.playerConn, hs.unregEmpty⟩
    · exact Nat.zero_le _
    · intro _
      rw [show ({ s.lobby with
          answer := na, round := 0, inProgress := true, history := [],
          slots := freshSlots } : Lobby).maxRounds = s.lobby.maxRounds from rfl,
        hs.linv.maxR]
      exact Nat.zero_lt_succ 4
    · intro sl hsl
      have hemp : sl = emptySlot := List.eq_of_mem_replicate hsl
      subst hemp
      intro h
      simp [emptySlot] at h

theorem inv_claim_core {s : Sys} {c : ConnId} {cur target : Nat}
    (slots2 : List Slot) (hs : Inv s) (hconn : s.connSlot c = some cur)
    (ht : target < 5) (hocc : playersHas s.lobby.players target = false)
    (hslen : slots2.length = 5)
    (hslots : ∀ sl ∈ slots2, sl.locked = true → isLetter1 sl.letter = true) :
    Inv { lobby := { s.lobby with
            players := playersSet
              (if s.lobby.players cur = some c then playersDelete s.lobby.players cur
               else s.lobby.players) target c,
            slots := slots2 },
          connSlot := fun d => if d = c then some target else s.connSlot d,
          registered := s.registered } := by
  have hpcur := (hs.connBound c cur hconn).2
  have hptarget : s.lobby.players target = none := by
    cases hpt : s.lobby.players target with
    | none => rfl
    | some d => simp [playersHas, hpt] at hocc
  refine ⟨⟨hslen, hs.linv.answerOk, hs.linv.maxR, hs.linv.roundLe,
    hs.linv.roundLt, hslots⟩, ?_, ?_, ?_⟩
  · intro d i hdi
    by_cases hdc : d = c
    · subst hdc
      have hi : target = i := by simpa using hdi
      subst hi
      refine ⟨ht, ?_⟩
      simp [playersSet]
    · have hdi' : s.connSlot d = some i := by simpa [hdc] using hdi
      obtain ⟨hi5, hpi⟩ := hs.connBound d i hdi'
      have hitarget : i ≠ target := by
        intro h
        subst h
        simp [hptarget] at hpi
      have hicur : i ≠ cur := by
        intro h
        subst h
        rw [hpcur] at hpi
        exact hdc (Option.some.inj hpi).symm
      refine ⟨hi5, ?_⟩
      simpa [playersSet, playersDelete, hitarget, hicur, hpcur] using hpi
  · intro i d hpi2
    by_cases hit : i = target
    · subst hit
      have hdc : c = d := by simpa [playersSet] using hpi2
      subst hdc
      simp
    · have h1 : playersDelete s.lobby.players cur i = some d := by
        simpa [playersSet, hit, hpcur] using hpi2
      have hicur : i ≠ cur := by
        intro hic
        subst hic
        simp [playersDelete] at h1
      have h2 : s.lobby.players i = some d := by
        simpa [playersDelete, hicur] using h1
      have hold := hs.playerConn i d h2
      have hdc : d ≠ c := by
        intro h
        subst h
        rw [hconn] at hold
        exact hicur (Option.some.inj hold).symm
      simpa [hdc] using hold
  · intro hregf
    exact absurd hconn (by simp [hs.unregEmpty hregf c])

theorem inv_claim {s : Sys} {c : ConnId} {cur target : Nat} (hs : Inv s)
    (hconn : s.connSlot c = some cur) : Inv (claimSys s c cur target) := by
  cases hip : s.lobby.inProgress with
  | false =>
    have hr := claimSlot_notInProgress s.lobby c cur target hip
    simp only [claimSys, hr]
    exact inv_connSlot_self hs hconn
  | true =>
    by_cases ht : target < 5
    · by_cases hocc : playersHas s.lobby.players target = true
      · have hr := claimSlot_taken s.lobby c cur target hip ht hocc
        simp only [claimSys, hr]
        exact inv_connSlot_self hs hconn
      · have hocc' : playersHas s.lobby.players target = false := by
          simpa using hocc
        by_cases hcurl : (s.lobby.slots.getD cur emptySlot).locked = true
        · by_cases hcount : lockedCount s.lobby < 5
          · have hr := claimSlot_lockedRow s.lobby c cur target hip ht hocc'
              hcurl hcount
            simp only [claimSys, hr]
            exact inv_connSlot_self hs hconn
          · have hr := claimSlot_movesLocked s.lobby c cur target hip ht hocc'
              hcurl hcount
            simp only [claimSys, hr]
            exact inv_claim_core s.lobby.slots hs hconn ht hocc'
              hs.linv.slotsLen hs.linv.slotOk
        · have hcurl' : (s.lobby.slots.getD cur emptySlot).locked = false := by
            simpa using hcurl
          have hr := claimSlot_moves s.lobby c cur target hip ht hocc' hcurl'
          simp only [claimSys, hr]
          refine inv_claim_core (s.lobby.slots.set cur emptySlot) hs hconn ht
            hocc' (by simp [hs.linv.slotsLen]) ?_
          intro sl hsl hlk
          rcases List.mem_or_eq_of_mem_set hsl with h | h
          · exact hs.linv.slotOk sl h hlk
          · subst h
            simp [emptySlot] at hlk
    · have hr := claimSlot_badIndex s.lobby c cur target hip ht
      simp only [claimSys, hr]
      exact inv_connSlot_self hs hconn

theorem inv_close {s : Sys} {c : ConnId} {slot : Nat} (hs : Inv s)
    (hconn : s.connSlot c = some slot) : Inv (wsClose s c slot).1 := by
  cases hreg : s.registered with
  | false => exact absurd hconn (by simp [hs.unregEmpty hreg c])
  | true =>
    have hbound := (hs.connBound c slot hconn).2
    rw [wsClose_bound s c slot hreg hbound]
    refine ⟨⟨?_, hs.linv.answerOk, hs.linv.maxR, hs.linv.roundLe,
      hs.linv.roundLt, ?_⟩, ?_, ?_, ?_⟩
    · dsimp only
      split <;> simp [hs.linv.slotsLen]
    · dsimp only
      split
      · intro sl hsl hlk
        rcases List.mem_or_eq_of_mem_set hsl with h | h
        · exact hs.linv.slotOk sl h hlk
        · subst h
          simp [emptySlot] at hlk
      · exact hs.linv.slotOk
    · intro d i hdi
      have hdc : d ≠ c := by
        intro h
        subst h
        simp at hdi
      have hdi' : s.connSlot d = some i := by simpa [hdc] using hdi
      obtain ⟨hi5, hpi⟩ := hs.connBound d i hdi'
      have hislot : i ≠ slot := by
        intro h
        subst h
        rw [hbound] at hpi
        exact hdc (Option.some.inj hpi).symm
      refine ⟨hi5, ?_⟩
      simpa [playersDelete, hislot] using hpi
    · intro i d hpi
      have hislot : i ≠ slot := by
        intro h
        subst h
        simp [playersDelete] at hpi
      have h2 : s.lobby.players i = some d := by
        simpa [playersDelete, hislot] using hpi
      have hold := hs.playerConn i d h2
      have hdc : d ≠ c := by
        intro h
        subst h
        rw [hconn] at hold
        exact hislot (Option.some.inj hold).symm
      simpa [hdc] using hold
    · intro hregf d
      dsimp only at hregf
      have hsize : playersSize (playersDelete s.lobby.players slot) = 0 := by
        have h2 : playersSize (playersDelete s.lobby.players slot) = 0 ∧
            s.lobby.history = [] := by simpa using hregf
        exact h2.1
      show (if d = c then none else s.connSlot d) = none
      by_cases hdc : d = c
      · simp [hdc]
      · rw [if_neg hdc]
        cases hcs : s.connSlot d with
        | none => rfl
        | some i =>
          exfalso
          obtain ⟨hi5, hpi⟩ := hs.connBound d i hcs
          have hislot : i ≠ slot := by
            intro h
            subst h
            rw [hbound] at hpi
            exact hdc (Option.some.inj hpi).symm
          have hnone := playersSize_zero hsize i hi5
          simp [playersDelete, hislot] at hnone
          rw [hnone] at hpi
          exact Option.noConfusion hpi

theorem inv_step {allowed : List Char → Bool} {s s' : Sys} (hs : Inv s)
    (st : Step allowed s s') : Inv s' := by
  cases st with
  | connect c assigned hreg hfresh hassign => exact inv_connect hs hreg hfresh hassign
  | preview c slot letterRaw hconn => exact inv_preview hs
  | submit c slot letterRaw na hconn hna => exact inv_submit hs
  | fill c slot slotIndex na hconn hna => exact inv_fill hs
  | claim c cur target hconn => exact inv_claim hs hconn
  | unlockStep c slot hconn => exact inv_unlock hs
  | reqReset c slot na hconn hna => exact inv_reqReset hs hna
  | close c slot hconn => exact inv_close hs hconn
  | otherMsg => exact hs

theorem reachable_inv {allowed : List Char → Bool} {s : Sys}
    (h : Reachable allowed s) : Inv s := by
  induction h with
  | init id na hna => exact inv_init id na hna
  | step h st ih => exact inv_step ih st

/-! ### Round and history characterization -/

theorem evaluateIfReady_round (allowed : List Char → Bool) (l : Lobby)
    (na : List Char) (hans : l.answer.length = 5) :
    (evaluateIfReady allowed l na).1.round = l.round ∨
    ((evaluateIfReady allowed l na).1.round = l.round + 1 ∧
     ∃ rg, (evaluateIfReady allowed l na).1.history = l.history ++ [rg] ∧
       rg.guess ≠ l.answer) := by
  by_cases h5 : lockedCount l < 5
  · rw [evaluateIfReady_waiting allowed l na hans h5]
    exact Or.inl rfl
  · by_cases hok : isWord5 (assembleGuess l) = true
    · by_cases hwin : assembleGuess l = l.answer
      · rw [evaluateIfReady_win allowed l na hans h5 hok hwin]
        exact Or.inl rfl
      · by_cases hend : l.maxRounds ≤ l.round + 1
        · rw [evaluateIfReady_exhaust allowed l na hans h5 hok hwin hend]
          exact Or.inr ⟨rfl, ⟨_, rfl, hwin⟩⟩
        · have hmore : l.round + 1 < l.maxRounds := by omega
          rw [evaluateIfReady_nextRow allowed l na hans h5 hok hwin hmore]
          exact Or.inr ⟨rfl, ⟨_, rfl, hwin⟩⟩
    · have hbad : isWord5 (assembleGuess l) = false := by simpa using hok
      rw [evaluateIfReady_rowUnlocked allowed l na hans h5 hbad]
      exact Or.inl rfl

theorem submitLetter_round (allowed : List Char → Bool) (l : Lobby)
    (conn : ConnId) (slot : Nat) (letterRaw na : List Char)
    (hans : l.answer.length = 5) :
    (submitLetter allowed l conn slot letterRaw na).1.round = l.round ∨
    ((submitLetter allowed l conn slot letterRaw na).1.round = l.round + 1 ∧
     ∃ rg, (submitLetter allowed l conn slot letterRaw na).1.history
         = l.history ++ [rg] ∧ rg.guess ≠ l.answer) := by
  cases hip : l.inProgress with
  | false =>
    rw [submitLetter_gameOver allowed l conn slot letterRaw na hip]
    exact Or.inl rfl
  | true =>
    by_cases hlet : isLetter1 ((jsTrim letterRaw).map jsToUpper) = true
    · by_cases hlocked : (l.slots.getD slot emptySlot).locked = true
      · rw [submitLetter_locked allowed l conn slot letterRaw na hip hans
          hlet hlocked]
        exact Or.inl rfl
      · have hl2 : (l.slots.getD slot emptySlot).locked = false := by
          simpa using hlocked
        rw [submitLetter_locks allowed l conn slot letterRaw na hip hans
          hlet hl2]
        exact evaluateIfReady_round allowed _ na hans
    · have hl3 : isLetter1 ((jsTrim letterRaw).map jsToUpper) = false := by
        simpa using hlet
      rw [submitLetter_badLetter allowed l conn slot letterRaw na hip hans hl3]
      exact Or.inl rfl

theorem fillSlot_round (allowed : List Char → Bool) (l : Lobby)
    (conn : ConnId) (i : Nat) (na : List Char) (hans : l.answer.length = 5) :
    (fillSlotWithAnswer allowed l conn i na).1.round = l.round ∨
    ((fillSlotWithAnswer allowed l conn i na).1.round = l.round + 1 ∧
     ∃ rg, (fillSlotWithAnswer allowed l conn i na).1.history
         = l.history ++ [rg] ∧ rg.guess ≠ l.answer) := by
  cases hip : l.inProgress with
  | false =>
    rw [fillSlot_notInProgress allowed l conn i na hip]
    exact Or.inl rfl
  | true =>
    by_cases hi : i < 5
    · by_cases hocc : playersHas l.players i = true
      · rw [fillSlot_occupied allowed l conn i na hip hans hi hocc]
        exact Or.inl rfl
      · have hocc' : playersHas l.players i = false := by simpa using hocc
        by_cases hlocked : (l.slots.getD i emptySlot).locked = true
        · rw [fillSlot_locked allowed l conn i na hip hans hi hocc' hlocked]
          exact Or.inl rfl
        · have hl2 : (l.slots.getD i emptySlot).locked = false := by
            simpa using hlocked
          rw [fillSlot_locks allowed l conn i na hip hans hi hocc' hl2]
          exact evaluateIfReady_round allowed _ na hans
    · rw [fillSlot_badIndex allowed l conn i na hip hans hi]
      exact Or.inl rfl

theorem previewLetter_frame (l : Lobby) (conn : ConnId) (slot : Nat)
    (letterRaw : List Char) :
    (previewLetter l conn slot letterRaw).1.round = l.round ∧
    (previewLetter l conn slot letterRaw).1.history = l.history := by
  unfold previewLetter
  repeat' split
  all_goals simp

theorem unlockMySlot_frame (l : Lobby) (slot : Nat) :
    (unlockMySlot l slot).1.round = l.round ∧
    (unlockMySlot l slot).1.history = l.history := by
  unfold unlockMySlot
  repeat' split
  all_goals simp

theorem claimSlot_frame (l : Lobby) (conn : ConnId) (cur target : Nat) :
    (claimSlot l conn cur target).1.round = l.round ∧
    (claimSlot l conn cur target).1.history = l.history := by
  unfold claimSlot
  repeat' split
  all_goals simp

theorem handleRequestReset_round (l : Lobby) (na : List Char) :
    (handleRequestReset l na).1.round = 0 ∨
    (handleRequestReset l na).1.round = l.round := by
  cases hip : l.inProgress with
  | true =>
    right
    rw [handleRequestReset_inProgress l na hip]
  | false =>
    left
    unfold handleRequestReset resetLobby
    simp [hip, ensureAnswer_round]

theorem wsClose_frame (s : Sys) (c : ConnId) (slot : Nat) :
    (wsClose s c slot).1.lobby.round = s.lobby.round ∧
    (wsClose s c slot).1.lobby.history = s.lobby.history := by
  unfold wsClose
  repeat' split
  all_goals simp

/-! ### Reachability of the demo states -/

theorem demoSys1_reachable : Reachable allowAll demoSys1 :=
  Reachable.step (Reachable.init demoId demoAnswer (by decide))
    (Step.connect demoSys0 7 0 rfl rfl (by decide))

theorem demoSys5_reachable : Reachable allowAll demoSys5 :=
  Reachable.step
    (Reachable.step
      (Reachable.step
        (Reachable.step demoSys1_reachable
          (Step.fill demoSys1 7 0 1 demoAnswer rfl (by decide)))
        (Step.fill demoSys2 7 0 2 demoAnswer rfl (by decide)))
      (Step.fill demoSys3 7 0 3 demoAnswer rfl (by decide)))
    (Step.fill demoSys4 7 0 4 demoAnswer rfl (by decide))

theorem demoWonSys_reachable : Reachable allowAll demoWonSys :=
  Reachable.step demoSys5_reachable
    (Step.submit demoSys5 7 0 ['c'] demoAnswer rfl (by decide))

/-- C2: with all 5 slots locked and a 5-letter assembled guess, evaluation
appends a Resolved Guess to history regardless of vocabulary membership
(membership only sets the `invalid` flag) and emits a reveal event; on a
winning guess `inProgress` becomes false with a game-over event carrying
the true answer and `round` unchanged; otherwise `round` is incremented by
one, and either the game ends `EXHAUSTED` with a game-over event or the
slots reset with a new-row event carrying the advanced round.  Moreover in
every reachable system state `round` starts at 0, stays in
`[0, maxRounds]`, and increases only by one, exactly when a non-winning
resolved guess is appended to history. -/
theorem C2_evaluate_round_lifecycle (allowed : List Char → Bool) :
    (∀ (l : Lobby) (na : List Char),
      l.answer.length = 5 → ¬ lockedCount l < 5 →
      isWord5 (assembleGuess l) = true →
      ((evaluateIfReady allowed l na).1.history
          = l.history ++
            [(⟨assembleGuess l, scoreGuess (assembleGuess l) l.answer,
               !allowed (assembleGuess l)⟩ : ResolvedGuess)] ∧
       (assembleGuess l = l.answer →
         (evaluateIfReady allowed l na).1.inProgress = false ∧
         (evaluateIfReady allowed l na).1.round = l.round ∧
         (evaluateIfReady allowed l na).2 =
           [GameEvent.reveal (assembleGuess l)
              (scoreGuess (assembleGuess l) l.answer) true l.round
              (!allowed (assembleGuess l)),
            GameEvent.gameOver solvedReason l.answer]) ∧
       (assembleGuess l ≠ l.answer → l.maxRounds ≤ l.round + 1 →
         (evaluateIfReady allowed l na).1.round = l.round + 1 ∧
         (evaluateIfReady allowed l na).1.inProgress = false ∧
         (evaluateIfReady allowed l na).2 =
           [GameEvent.reveal (assembleGuess l)
              (scoreGuess (assembleGuess l) l.answer) false l.round
              (!allowed (assembleGuess l)),
            GameEvent.gameOver outOfRoundsReason l.answer]) ∧
       (assembleGuess l ≠ l.answer → l.round + 1 < l.maxRounds →
         (evaluateIfReady allowed l na).1.round = l.round + 1 ∧
         (evaluateIfReady allowed l na).1.inProgress = l.inProgress ∧
         (evaluateIfReady allowed l na).1.slots = freshSlots ∧
         (evaluateIfReady allowed l na).2 =
           [GameEvent.reveal (assembleGuess l)
              (scoreGuess (assembleGuess l) l.answer) false l.round
              (!allowed (assembleGuess l)),
            GameEvent.newRow (l.round + 1) freshSlots]))) ∧
    (∀ (id : String) (na : List Char), isWord5 na = true →
      (initSys id na).lobby.round = 0) ∧
    (∀ s : Sys, Reachable allowed s → s.lobby.round ≤ s.lobby.maxRounds) ∧
    (∀ s s' : Sys, Reachable allowed s → Step allowed s s' →
      s.lobby.round < s'.lobby.round →
      s'.lobby.round = s.lobby.round + 1 ∧
      ∃ rg, s'.lobby.history = s.lobby.history ++ [rg] ∧
        rg.guess ≠ s.lobby.answer) := by
  refine ⟨?_, ?_, ?_, ?_⟩
  · intro l na hans h5 hok
    refine ⟨?_, ?_, ?_, ?_⟩
    · by_cases hwin : assembleGuess l = l.answer
      · rw [evaluateIfReady_win allowed l na hans h5 hok hwin]
      · by_cases hend : l.maxRounds ≤ l.round + 1
        · rw [evaluateIfReady_exhaust allowed l na hans h5 hok hwin hend]
        · have hmore : l.round + 1 < l.maxRounds := by omega
          rw [evaluateIfReady_nextRow allowed l na hans h5 hok hwin hmore]
    · intro hwin
      rw [evaluateIfReady_win allowed l na hans h5 hok hwin]
      exact ⟨rfl, rfl, rfl⟩
    · intro hwin hend
      rw [evaluateIfReady_exhaust allowed l na hans h5 hok hwin hend]
      exact ⟨rfl, rfl, rfl⟩
    · intro hwin hmore
      rw [evaluateIfReady_nextRow allowed l na hans h5 hok hwin hmore]
      exact ⟨rfl, rfl, rfl, rfl⟩
  · intro id na hna
    show (createLobby id na).round = 0
    rw [createLobby_eq id na (isWord5_length hna)]
  · intro s hreach
    exact (reachable_inv hreach).linv.roundLe
  · intro s s' hreach hstep hlt
    have hinv := reachable_inv hreach
    have hans : s.lobby.answer.length = 5 := isWord5_length hinv.linv.answerOk
    cases hstep with
    | connect c assigned hreg hfresh hassign =>
      exact absurd hlt (lt_irrefl _)
    | preview c slot letterRaw hconn =>
      have hfr := previewLetter_frame s.lobby c slot letterRaw
      rw [show (previewSys s c slot letterRaw).lobby.round
          = (previewLetter s.lobby c slot letterRaw).1.round from rfl, hfr.1]
        at hlt
      exact absurd hlt (lt_irrefl _)
    | submit c slot letterRaw na hconn hna =>
      rcases submitLetter_round allowed s.lobby c slot letterRaw na hans with
        heq | ⟨hinc, rg, hh, hne⟩
      · rw [show (submitSys allowed s c slot letterRaw na).lobby.round
            = (submitLetter allowed s.lobby c slot letterRaw na).1.round
            from rfl, heq] at hlt
        exact absurd hlt (lt_irrefl _)
      · exact ⟨hinc, rg, hh, hne⟩
    | fill c slot slotIndex na hconn hna =>
      rcases fillSlot_round allowed s.lobby c slotIndex na hans with
        heq | ⟨hinc, rg, hh, hne⟩
      · rw [show (fillSys allowed s c slotIndex na).lobby.round
            = (fillSlotWithAnswer allowed s.lobby c slotIndex na).1.round
            from rfl, heq] at hlt
        exact absurd hlt (lt_irrefl _)
      · exact ⟨hinc, rg, hh, hne⟩
    | claim c cur target hconn =>
      have hfr := claimSlot_frame s.lobby c cur target
      rw [show (claimSys s c cur target).lobby.round
          = (claimSlot s.lobby c cur target).1.round from rfl, hfr.1] at hlt
      exact absurd hlt (lt_irrefl _)
    | unlockStep c slot hconn =>
      have hfr := unlockMySlot_frame s.lobby slot
      rw [show (unlockSys s slot).lobby.round
          = (unlockMySlot s.lobby slot).1.round from rfl, hfr.1] at hlt
      exact absurd hlt (lt_irrefl _)
    | reqReset c slot na hconn hna =>
      rcases handleRequestReset_round s.lobby na with h0 | heq
      · rw [show (reqResetSys s na).lobby.round
            = (handleRequestReset s.lobby na).1.round from rfl, h0] at hlt
        exact absurd hlt (Nat.not_lt_zero _)
      · rw [show (reqResetSys s na).lobby.round
            = (handleRequestReset s.lobby na).1.round from rfl, heq] at hlt
        exact absurd hlt (lt_irrefl _)
    | close c slot hconn =>
      have hfr := wsClose_frame s c slot
      rw [hfr.1] at hlt
      exact absurd hlt (lt_irrefl _)
    | otherMsg =>
      exact absurd hlt (lt_irrefl _)

/-- C2 witness: the non-winning, non-final guess `STONE` against `CRANE`
in round 0 of 5, plus the reachable-state facts at concrete rooms and the
round-incrementing concrete step from `demoSys5` to `demoLoseSys`. -/
theorem C2_evaluate_round_lifecycle_witness :
    (demoEvalLobby.answer.length = 5 ∧ ¬ lockedCount demoEvalLobby < 5 ∧
     isWord5 (assembleGuess demoEvalLobby) = true ∧
     assembleGuess demoEvalLobby ≠ demoEvalLobby.answer ∧
     demoEvalLobby.round + 1 < demoEvalLobby.maxRounds) ∧
    ((evaluateIfReady allowAll demoEvalLobby demoAnswer).1.history
        = demoEvalLobby.history ++
          [(⟨assembleGuess demoEvalLobby,
             scoreGuess (assembleGuess demoEvalLobby) demoEvalLobby.answer,
             !allowAll (assembleGuess demoEvalLobby)⟩ : ResolvedGuess)] ∧
     (evaluateIfReady allowAll demoEvalLobby demoAnswer).1.round
        = demoEvalLobby.round + 1 ∧
     (evaluateIfReady allowAll demoEvalLobby demoAnswer).1.slots = freshSlots) ∧
    (initSys demoId demoAnswer).lobby.round = 0 ∧
    demoSys1.lobby.round ≤ demoSys1.lobby.maxRounds ∧
    (demoSys5.lobby.round < demoLoseSys.lobby.round ∧
     demoLoseSys.lobby.round = demoSys5.lobby.round + 1 ∧
     ∃ rg, demoLoseSys.lobby.history = demoSys5.lobby.history ++ [rg] ∧
       rg.guess ≠ demoSys5.lobby.answer) := by
  have hmain := C2_evaluate_round_lifecycle allowAll
  have hbeh := hmain.1 demoEvalLobby demoAnswer (by decide) (by decide) (by decide)
  have hnext := hbeh.2.2.2 (by decide) (by decide)
  have hstep := hmain.2.2.2 demoSys5 demoLoseSys demoSys5_reachable
    (Step.submit demoSys5 7 0 ['X'] demoAnswer rfl (by decide)) (by decide)
  exact ⟨⟨by decide, by decide, by decide, by decide, by decide⟩,
    ⟨hbeh.1, hnext.1, hnext.2.2.1⟩,
    hmain.2.1 demoId demoAnswer (by decide),
    hmain.2.2.1 demoSys1 demoSys1_reachable,
    by decide, hstep⟩

theorem assembleGuess_ok (l : Lobby) (hlen : l.slots.length = 5)
    (hall : ∀ sl ∈ l.slots, sl.locked = true)
    (hok : ∀ sl ∈ l.slots, sl.locked = true → isLetter1 sl.letter = true) :
    isWord5 (assembleGuess l) = true := by
  have h := joinStr_word l.slots (fun sl hs => hok sl hs (hall sl hs))
  unfold isWord5 assembleGuess
  rw [Bool.and_eq_true, beq_iff_eq]
  refine ⟨?_, ?_⟩
  · rw [show joinStr (l.slots.map fun s => s.letter.map jsToUpper)
        = assembleGuess l from rfl] at h ⊢
    rw [h.1, hlen]
  · rw [List.all_eq_true]
    exact h.2

theorem getD_set_ne {α : Type} (l : List α) (i j : Nat) (a d : α)
    (h : j ≠ i) : (l.set i a).getD j d = l.getD j d := by
  simp [List.getD_eq_getElem?_getD, List.getElem?_set_ne (Ne.symm h)]

/-- C3: `submitLetter` is first-writer-wins: for any slot already locked, a
second submit (same or different letter) leaves the whole lobby unchanged
and emits nothing but (at most) a targeted error event — no slot-update
broadcast, no evaluation.  The second conjunct justifies the well-formed
answer hypothesis: every reachable room has a 5-character answer. -/
theorem C3_submitLetter_first_writer_wins (allowed : List Char → Bool) :
    (∀ (l : Lobby) (conn : ConnId) (slot : Nat) (letterRaw na : List Char),
      l.answer.length = 5 →
      (l.slots.getD slot emptySlot).locked = true →
      (submitLetter allowed l conn slot letterRaw na).1 = l ∧
      ∀ e ∈ (submitLetter allowed l conn slot letterRaw na).2,
        ∃ c m, e = GameEvent.errorTo c m) ∧
    (∀ s : Sys, Reachable allowed s → s.lobby.answer.length = 5) := by
  constructor
  · intro l conn slot letterRaw na hans hlocked
    cases hip : l.inProgress with
    | false =>
      rw [submitLetter_gameOver allowed l conn slot letterRaw na hip]
      refine ⟨rfl, ?_⟩
      intro e he
      simp only [List.mem_singleton] at he
      exact ⟨conn, gameOverMsg, he⟩
    | true =>
      by_cases hlet : isLetter1 ((jsTrim letterRaw).map jsToUpper) = true
      · rw [submitLetter_locked allowed l conn slot letterRaw na hip hans
          hlet hlocked]
        refine ⟨rfl, ?_⟩
        intro e he
        simp at he
      · have hl3 : isLetter1 ((jsTrim letterRaw).map jsToUpper) = false := by
          simpa using hlet
        rw [submitLetter_badLetter allowed l conn slot letterRaw na hip hans hl3]
        refine ⟨rfl, ?_⟩
        intro e he
        simp only [List.mem_singleton] at he
        exact ⟨conn, oneLetterMsg, he⟩
  · intro s hreach
    exact isWord5_length (reachable_inv hreach).linv.answerOk

/-- C3 witness: a duplicate submit against the locked slot 2 of `c3Lobby`. -/
theorem C3_submitLetter_first_writer_wins_witness :
    (c3Lobby.answer.length = 5 ∧
     (c3Lobby.slots.getD 2 emptySlot).locked = true) ∧
    ((submitLetter allowAll c3Lobby 9 2 ['Z'] demoAnswer).1 = c3Lobby ∧
     ∀ e ∈ (submitLetter allowAll c3Lobby 9 2 ['Z'] demoAnswer).2,
       ∃ c m, e = GameEvent.errorTo c m) ∧
    demoSys1.lobby.answer.length = 5 := by
  have h := C3_submitLetter_first_writer_wins allowAll
  exact ⟨⟨by decide, by decide⟩,
    h.1 c3Lobby 9 2 ['Z'] demoAnswer (by decide) (by decide),
    h.2 demoSys1 demoSys1_reachable⟩

/-- C4: in every reachable state each locked slot holds a single A–Z
letter, so whenever all 5 slots are locked the assembled guess passes the
`/^[A-Z]{5}$/` test and the defensive branch cannot run; and if the branch
did run it would unlock every slot and emit a row-unlocked event without
touching round or history. -/
theorem C4_defensive_branch_unreachable (allowed : List Char → Bool) :
    (∀ s : Sys, Reachable allowed s →
      ∀ sl ∈ s.lobby.slots, sl.locked = true → isLetter1 sl.letter = true) ∧
    (∀ s : Sys, Reachable allowed s → ¬ lockedCount s.lobby < 5 →
      isWord5 (assembleGuess s.lobby) = true) ∧
    (∀ (l : Lobby) (na : List Char), l.answer.length = 5 →
      ¬ lockedCount l < 5 → isWord5 (assembleGuess l) = false →
      (evaluateIfReady allowed l na).1.slots
          = l.slots.map (fun sl => { sl with locked := false }) ∧
      (evaluateIfReady allowed l na).2
          = [GameEvent.rowUnlocked
              (l.slots.map fun sl => { sl with locked := false })] ∧
      (evaluateIfReady allowed l na).1.round = l.round ∧
      (evaluateIfReady allowed l na).1.history = l.history) := by
  refine ⟨?_, ?_, ?_⟩
  · intro s hreach
    exact (reachable_inv hreach).linv.slotOk
  · intro s hreach h5
    have hinv := reachable_inv hreach
    have hlen := hinv.linv.slotsLen
    have hle := List.length_filter_le (fun sl => sl.locked) s.lobby.slots
    have heq : (s.lobby.slots.filter fun sl => sl.locked).length
        = s.lobby.slots.length := by
      unfold lockedCount at h5
      omega
    have hall := filter_length_all _ _ heq
    exact assembleGuess_ok s.lobby hlen hall hinv.linv.slotOk
  · intro l na hans h5 hbad
    rw [evaluateIfReady_rowUnlocked allowed l na hans h5 hbad]
    exact ⟨rfl, rfl, rfl, rfl⟩

/-- C4 witness: the reachable won room keeps all 5 slots locked with a
well-formed guess, and the (unreachable) `demoBadLobby` exercises the
defensive branch. -/
theorem C4_defensive_branch_unreachable_witness :
    (¬ lockedCount demoWonSys.lobby < 5 ∧
     demoBadLobby.answer.length = 5 ∧ ¬ lockedCount demoBadLobby < 5 ∧
     isWord5 (assembleGuess demoBadLobby) = false) ∧
    (∀ sl ∈ demoWonSys.lobby.slots, sl.locked = true →
      isLetter1 sl.letter = true) ∧
    isWord5 (assembleGuess demoWonSys.lobby) = true ∧
    ((evaluateIfReady allowAll demoBadLobby demoAnswer).1.round
        = demoBadLobby.round ∧
     (evaluateIfReady allowAll demoBadLobby demoAnswer).1.history
        = demoBadLobby.history ∧
     (evaluateIfReady allowAll demoBadLobby demoAnswer).2
        = [GameEvent.rowUnlocked
            (demoBadLobby.slots.map fun sl => { sl with locked := false })]) := by
  have h := C4_defensive_branch_unreachable allowAll
  have hbr := h.2.2 demoBadLobby demoAnswer (by decide) (by decide) (by decide)
  exact ⟨⟨by decide, by decide, by decide, by decide⟩,
    h.1 demoWonSys demoWonSys_reachable,
    h.2.1 demoWonSys demoWonSys_reachable (by decide),
    hbr.2.2.1, hbr.2.2.2, hbr.2.1⟩

/-- C5: `requestReset` has no observable effect while the game is in
progress; from a terminal state it draws a new answer, resets round to 0,
clears history and slots, re-enters the in-progress state, preserves the
room id, the bound players and `maxRounds`, and emits a reset event. -/
theorem C5_reset_only_terminal :
    (∀ (l : Lobby) (na : List Char), l.inProgress = true →
      handleRequestReset l na = (l, [])) ∧
    (∀ (l : Lobby) (na : List Char), l.inProgress = false → na.length = 5 →
      handleRequestReset l na =
        ({ l with
            answer := na, round := 0, inProgress := true, history := [],
            slots := freshSlots },
         [GameEvent.resetEvent 0 freshSlots]) ∧
      (handleRequestReset l na).1.id = l.id ∧
      (handleRequestReset l na).1.players = l.players ∧
      (handleRequestReset l na).1.maxRounds = l.maxRounds) := by
  constructor
  · exact handleRequestReset_inProgress
  · intro l na hip hna
    have hr := handleRequestReset_terminal l na hip hna
    refine ⟨hr, ?_, ?_, ?_⟩ <;> rw [hr]

/-- C5 witness: a reset attempt against the in-progress `c3Lobby` and a
real reset of the terminal `c6Lobby`. -/
theorem C5_reset_only_terminal_witness :
    (c3Lobby.inProgress = true ∧
     handleRequestReset c3Lobby demoAnswer = (c3Lobby, [])) ∧
    (c6Lobby.inProgress = false ∧ demoAnswer.length = 5 ∧
     (handleRequestReset c6Lobby demoAnswer =
        ({ c6Lobby with
            answer := demoAnswer, round := 0, inProgress := true,
            history := [], slots := freshSlots },
         [GameEvent.resetEvent 0 freshSlots]) ∧
      (handleRequestReset c6Lobby demoAnswer).1.id = c6Lobby.id ∧
      (handleRequestReset c6Lobby demoAnswer).1.players = c6Lobby.players ∧
      (handleRequestReset c6Lobby demoAnswer).1.maxRounds
        = c6Lobby.maxRounds)) :=
  ⟨⟨rfl, C5_reset_only_terminal.1 c3Lobby demoAnswer rfl⟩,
   ⟨rfl, by decide,
    C5_reset_only_terminal.2 c6Lobby demoAnswer rfl (by decide)⟩⟩

/-- C6 counterexample: the claim says a `claimSlot` to a target bound to
another connection always fails *with an error to the requester*; but when
the room is not in progress (terminal), `claimSlot` returns silently —
no error event is emitted at all.  In `c6Lobby` (terminal), slot 1 is
bound to connection 99 ≠ 7, yet connection 7's claim of slot 1 produces
an empty event list. -/
theorem C6_counterexample :
    c6Lobby.inProgress = false ∧
    c6Lobby.players 1 = some 99 ∧ (99 : ConnId) ≠ 7 ∧
    claimSlot c6Lobby 7 0 1 = (c6Lobby, 0, []) :=
  ⟨rfl, rfl, by decide, claimSlot_notInProgress c6Lobby 7 0 1 rfl⟩

/-- C6 amended: while the room is in progress, `claimSlot` to a target
bound to another connection fails with an error and no change; claiming
while one's current slot is locked with fewer than 5 locked overall fails
likewise; when the room is not in progress `claimSlot` is a silent no-op
(no event at all).  On success with an unlocked vacated slot, the preview
is cleared with a slot-update, the connection is bound at the target and
the roster is broadcast. -/
theorem C6_claimSlot_amended (l : Lobby) (conn d : ConnId) (cur target : Nat) :
    (l.inProgress = false → claimSlot l conn cur target = (l, cur, [])) ∧
    (l.inProgress = true → target < 5 → l.players target = some d →
      d ≠ conn →
      claimSlot l conn cur target
        = (l, cur, [GameEvent.errorTo conn slotTakenMsg])) ∧
    (l.inProgress = true → target < 5 → playersHas l.players target = false →
      (l.slots.getD cur emptySlot).locked = true → lockedCount l < 5 →
      claimSlot l conn cur target
        = (l, cur, [GameEvent.errorTo conn lockedRowMsg])) ∧
    (l.inProgress = true → target < 5 → playersHas l.players target = false →
      (l.slots.getD cur emptySlot).locked = false →
      claimSlot l conn cur target =
        ({ l with
            players := playersSet
              (if l.players cur = some conn then playersDelete l.players cur
               else l.players) target conn,
            slots := l.slots.set cur emptySlot },
         target,
         [GameEvent.slotUpdate cur emptySlot,
          GameEvent.slotClaimedTo conn target, GameEvent.roster])) :=
  ⟨fun hip => claimSlot_notInProgress l conn cur target hip,
   fun hip ht hocc _ =>
     claimSlot_taken l conn cur target hip ht (by simp [playersHas, hocc]),
   claimSlot_lockedRow l conn cur target,
   claimSlot_moves l conn cur target⟩

/-- C6 witness: all four branches at concrete rooms — the terminal
`c6Lobby`, and `c3Lobby` for occupied-target, locked-current and
successful moves. -/
theorem C6_claimSlot_amended_witness :
    (c6Lobby.inProgress = false ∧ claimSlot c6Lobby 7 0 1 = (c6Lobby, 0, [])) ∧
    (c3Lobby.inProgress = true ∧ c3Lobby.players 2 = some 7 ∧ (7 : ConnId) ≠ 9 ∧
     claimSlot c3Lobby 9 0 2 = (c3Lobby, 0, [GameEvent.errorTo 9 slotTakenMsg])) ∧
    (playersHas c3Lobby.players 0 = false ∧
     (c3Lobby.slots.getD 2 emptySlot).locked = true ∧ lockedCount c3Lobby < 5 ∧
     claimSlot c3Lobby 7 2 0 = (c3Lobby, 2, [GameEvent.errorTo 7 lockedRowMsg])) ∧
    (playersHas c3Lobby.players 1 = false ∧
     (c3Lobby.slots.getD 0 emptySlot).locked = false ∧
     claimSlot c3Lobby 9 0 1 =
        ({ c3Lobby with
            players := playersSet
              (if c3Lobby.players 0 = some 9 then playersDelete c3Lobby.players 0
               else c3Lobby.players) 1 9,
            slots := c3Lobby.slots.set 0 emptySlot },
         1,
         [GameEvent.slotUpdate 0 emptySlot,
          GameEvent.slotClaimedTo 9 1, GameEvent.roster])) := by
  refine ⟨⟨rfl, (C6_claimSlot_amended c6Lobby 7 0 0 1).1 rfl⟩,
    ⟨rfl, rfl, by decide,
      (C6_claimSlot_amended c3Lobby 9 7 0 2).2.1 rfl (by decide) rfl (by decide)⟩,
    ⟨by decide, by decide, by decide,
      (C6_claimSlot_amended c3Lobby 7 0 2 0).2.2.1 rfl (by decide) (by decide)
        (by decide) (by decide)⟩,
    ⟨by decide, by decide,
      (C6_claimSlot_amended c3Lobby 9 0 0 1).2.2.2 rfl (by decide) (by decide)
        (by decide)⟩⟩

/-- C7: a disconnect releases the connection's bound slot from the players
map; a locked slot survives untouched for the in-flight round while an
unlocked slot is cleared; every other slot and the round, history,
in-progress flag and answer are unchanged. -/
theorem C7_disconnect_frame (s : Sys) (c : ConnId) (slot : Nat)
    (hreg : s.registered = true) (hbound : s.lobby.players slot = some c) :
    (wsClose s c slot).1.lobby.players slot = none ∧
    (∀ j, j ≠ slot → (wsClose s c slot).1.lobby.players j = s.lobby.players j) ∧
    ((s.lobby.slots.getD slot emptySlot).locked = true →
      (wsClose s c slot).1.lobby.slots = s.lobby.slots) ∧
    ((s.lobby.slots.getD slot emptySlot).locked = false →
      (wsClose s c slot).1.lobby.slots = s.lobby.slots.set slot emptySlot ∧
      ∀ j, j ≠ slot →
        (wsClose s c slot).1.lobby.slots.getD j emptySlot
          = s.lobby.slots.getD j emptySlot) ∧
    (wsClose s c slot).1.lobby.round = s.lobby.round ∧
    (wsClose s c slot).1.lobby.history = s.lobby.history ∧
    (wsClose s c slot).1.lobby.inProgress = s.lobby.inProgress ∧
    (wsClose s c slot).1.lobby.answer = s.lobby.answer := by
  rw [wsClose_bound s c slot hreg hbound]
  refine ⟨?_, ?_, ?_, ?_, rfl, rfl, rfl, rfl⟩
  · dsimp only
    simp [playersDelete]
  · intro j hj
    dsimp only
    simp [playersDelete, hj]
  · intro hlk
    dsimp only
    rw [hlk]
    rfl
  · intro hlk
    dsimp only
    rw [hlk]
    refine ⟨rfl, ?_⟩
    intro j hj
    exact getD_set_ne s.lobby.slots slot j emptySlot emptySlot hj

/-- C7 witness: closing connection 7 of the won room (its slot 0 is
locked) and of the fresh room `demoSys1` (slot 0 unlocked). -/
theorem C7_disconnect_frame_witness :
    (demoWonSys.registered = true ∧ demoWonSys.lobby.players 0 = some 7 ∧
     (demoWonSys.lobby.slots.getD 0 emptySlot).locked = true) ∧
    ((wsClose demoWonSys 7 0).1.lobby.players 0 = none ∧
     (wsClose demoWonSys 7 0).1.lobby.slots = demoWonSys.lobby.slots ∧
     (wsClose demoWonSys 7 0).1.lobby.history = demoWonSys.lobby.history) ∧
    (demoSys1.registered = true ∧ demoSys1.lobby.players 0 = some 7 ∧
     (demoSys1.lobby.slots.getD 0 emptySlot).locked = false) ∧
    ((wsClose demoSys1 7 0).1.lobby.players 0 = none ∧
     (wsClose demoSys1 7 0).1.lobby.slots
        = demoSys1.lobby.slots.set 0 emptySlot) := by
  have hwon := C7_disconnect_frame demoWonSys 7 0 rfl (by decide)
  have hfresh := C7_disconnect_frame demoSys1 7 0 rfl rfl
  exact ⟨⟨rfl, by decide, by decide⟩,
    ⟨hwon.1, hwon.2.2.1 (by decide), hwon.2.2.2.2.2.1⟩,
    ⟨rfl, rfl, by decide⟩,
    ⟨hfresh.1, (hfresh.2.2.2.1 (by decide)).1⟩⟩

/-- C8: a step never unregisters a room whose history is non-empty; the
disconnect of the last bound connection of a registered room with empty
history unregisters it immediately; and the only transitions that flip
`registered` from true to false leave a room with zero bound players and
empty history — no other event removes a room. -/
theorem C8_reap_policy (allowed : List Char → Bool) :
    (∀ s s' : Sys, Step allowed s s' → s.lobby.history ≠ [] →
      s'.registered = s.registered) ∧
    (∀ (s : Sys) (c : ConnId) (slot : Nat), s.registered = true →
      s.lobby.players slot = some c →
      playersSize (playersDelete s.lobby.players slot) = 0 →
      s.lobby.history = [] → (wsClose s c slot).1.registered = false) ∧
    (∀ s s' : Sys, Step allowed s s' → s.registered = true →
      s'.registered = false →
      playersSize s'.lobby.players = 0 ∧ s'.lobby.history = []) := by
  refine ⟨?_, ?_, ?_⟩
  · intro s s' hstep hhist
    cases hstep with
    | connect c assigned hreg hfresh hassign => rfl
    | preview c slot letterRaw hconn => rfl
    | submit c slot letterRaw na hconn hna => rfl
    | fill c slot slotIndex na hconn hna => rfl
    | claim c cur target hconn => rfl
    | unlockStep c slot hconn => rfl
    | reqReset c slot na hconn hna => rfl
    | otherMsg => rfl
    | close c slot hconn =>
      cases hreg : s.registered with
      | false =>
        rw [wsClose_unregistered s c slot hreg]
        exact hreg
      | true =>
        by_cases hbound : s.lobby.players slot = some c
        · rw [wsClose_bound s c slot hreg hbound]
          dsimp only
          simp [List.isEmpty_iff, hhist]
        · rw [wsClose_unbound s c slot hreg hbound]
          dsimp only
          simp [List.isEmpty_iff, hhist]
  · intro s c slot hreg hbound hsize hhist
    rw [wsClose_bound s c slot hreg hbound]
    dsimp only
    simp [hsize, List.isEmpty_iff, hhist]
  · intro s s' hstep hreg hreg'
    cases hstep with
    | connect c assigned hreg2 hfresh hassign => simp [connectSys, hreg] at hreg'
    | preview c slot letterRaw hconn => simp [previewSys, hreg] at hreg'
    | submit c slot letterRaw na hconn hna => simp [submitSys, hreg] at hreg'
    | fill c slot slotIndex na hconn hna => simp [fillSys, hreg] at hreg'
    | claim c cur target hconn => simp [claimSys, hreg] at hreg'
    | unlockStep c slot hconn => simp [unlockSys, hreg] at hreg'
    | reqReset c slot na hconn hna => simp [reqResetSys, hreg] at hreg'
    | otherMsg => rw [hreg] at hreg'; exact Bool.noConfusion hreg'
    | close c slot hconn =>
      by_cases hbound : s.lobby.players slot = some c
      · rw [wsClose_bound s c slot hreg hbound] at hreg' ⊢
        dsimp only at hreg' ⊢
        have h2 : playersSize (playersDelete s.lobby.players slot) = 0 ∧
            s.lobby.history = [] := by simpa using hreg'
        exact ⟨h2.1, h2.2⟩
      · rw [wsClose_unbound s c slot hreg hbound] at hreg' ⊢
        dsimp only at hreg' ⊢
        have h2 : playersSize s.lobby.players = 0 ∧ s.lobby.history = [] := by
          simpa using hreg'
        exact ⟨h2.1, h2.2⟩

/-- C8 witness: a message step on the played-out won room keeps it
registered; closing the only connection of the fresh unplayed `demoSys1`
removes it, and that closing step indeed leaves zero players and empty
history. -/
theorem C8_reap_policy_witness :
    (demoWonSys.lobby.history ≠ [] ∧
     demoWonSys.registered = demoWonSys.registered) ∧
    (demoSys1.registered = true ∧ demoSys1.lobby.players 0 = some 7 ∧
     playersSize (playersDelete demoSys1.lobby.players 0) = 0 ∧
     demoSys1.lobby.history = [] ∧
     (wsClose demoSys1 7 0).1.registered = false) ∧
    (playersSize (wsClose demoSys1 7 0).1.lobby.players = 0 ∧
     (wsClose demoSys1 7 0).1.lobby.history = []) := by
  have h := C8_reap_policy allowAll
  refine ⟨⟨by decide, ?_⟩, ⟨rfl, rfl, by decide, rfl, ?_⟩, ?_⟩
  · exact h.1 demoWonSys demoWonSys (Step.otherMsg demoWonSys) (by decide)
  · exact h.2.1 demoSys1 7 0 rfl rfl (by decide) rfl
  · exact h.2.2 demoSys1 (wsClose demoSys1 7 0).1
      (Step.close demoSys1 7 0 rfl) rfl
      (h.2.1 demoSys1 7 0 rfl rfl (by decide) rfl)

/-- C10: the players map is injective in every reachable state — no
connection is bound at two slot indices simultaneously. -/
theorem C10_players_injective (allowed : List Char → Bool) (s : Sys)
    (hreach : Reachable allowed s) :
    ∀ i j c, s.lobby.players i = some c → s.lobby.players j = some c →
      i = j := by
  have hinv := reachable_inv hreach
  intro i j c hi hj
  have h1 := hinv.playerConn i c hi
  have h2 := hinv.playerConn j c hj
  rw [h1] at h2
  exact Option.some.inj h2

/-- C10 witness: the reachable room with connection 7 bound at slot 0. -/
theorem C10_players_injective_witness :
    demoSys1.lobby.players 0 = some 7 ∧ (0 : Nat) = 0 := by
  have h : demoSys1.lobby.players 0 = some 7 := rfl
  exact ⟨h, C10_players_injective allowAll demoSys1 demoSys1_reachable 0 0 7 h h⟩

end Congeal2
